import Mathlib

/-!
# go-log: the hour-bucketed write router and the process registry

A shallow embedding of `default.go` (`timeBasedWriteSyncer`, `defaultLog`) and
`log.go` (`DefaultLog`, `Logger`).  The Go standard library pieces the router
calls (`time.Time.Format`, `filepath.Join`, `os.Truncate`, `fmt.Printf`) and the
`lumberjack.Logger` sink are modelled next to it; the file system and the two
output streams are an explicit `World` value, and the failures the operating
system may answer with are an explicit argument of every call.
-/

namespace GoLog

/-! ## Wall-clock time and `Format("2006-01-02-15")` -/

/-- Civil reading of `time.Now()` in the process's time zone. The bounds are the
ones `time.Time` guarantees for `Month()`, `Day()`, `Hour()`, `Minute()` and
`Second()`. -/
structure Time where
  year : Nat
  month : Nat
  day : Nat
  hour : Nat
  minute : Nat
  second : Nat
  month_ok : 1 ≤ month ∧ month ≤ 12
  day_ok : 1 ≤ day ∧ day ≤ 31
  hour_ok : hour < 24
  minute_ok : minute < 60
  second_ok : second < 60

/-- Method `Hour()` of `time.Time`, a Go `int`. -/
def Time.Hour (t : Time) : Int := (t.hour : Int)

/-- Two instants fall in the same calendar hour. -/
def sameCalendarHour (t1 t2 : Time) : Prop :=
  t1.year = t2.year ∧ t1.month = t2.month ∧ t1.day = t2.day ∧ t1.hour = t2.hour

instance (t1 t2 : Time) : Decidable (sameCalendarHour t1 t2) := by
  unfold sameCalendarHour; infer_instance

/-- Lexicographic order of two instants of one time zone. -/
def Time.key (t : Time) : List Nat :=
  [t.year, t.month, t.day, t.hour, t.minute, t.second]

/-- The decimal digit `d` as a character. -/
def digitChar (d : Nat) : Char :=
  match d with
  | 0 => '0' | 1 => '1' | 2 => '2' | 3 => '3' | 4 => '4'
  | 5 => '5' | 6 => '6' | 7 => '7' | 8 => '8' | _ => '9'

/-- Value of a decimal digit character (the inverse table). -/
def digitVal (c : Char) : Nat :=
  if c = '1' then 1 else if c = '2' then 2 else if c = '3' then 3
  else if c = '4' then 4 else if c = '5' then 5 else if c = '6' then 6
  else if c = '7' then 7 else if c = '8' then 8 else if c = '9' then 9 else 0

/-- Reads a decimal numeral back, most significant digit first. -/
def parseDec (cs : List Char) : Nat :=
  cs.foldl (fun a c => 10 * a + digitVal c) 0

/-- The digit loop of `time.appendInt`: decimal digits of `u`, assembled from
the least significant one. The first argument bounds the iterations. -/
def utoaAux : Nat → Nat → List Char → List Char
  | 0, u, acc => digitChar (u % 10) :: acc
  | fuel + 1, u, acc =>
    if 10 ≤ u then utoaAux fuel (u / 10) (digitChar (u % 10) :: acc)
    else digitChar u :: acc

/-- Decimal digits of `u`. -/
def utoa (u : Nat) : List Char := utoaAux u u []

/-- Library `time.appendInt(b, x, width)` for `x ≥ 0`: the decimal form of `x`,
zero-padded to at least `width` characters, with the two fast paths of the
library for 2- and 4-digit fields. -/
def appendInt (x width : Nat) : List Char :=
  if width = 2 ∧ x < 100 then [digitChar (x / 10), digitChar (x % 10)]
  else if width = 4 ∧ x < 10000 then
    [digitChar (x / 1000), digitChar (x / 100 % 10), digitChar (x / 10 % 10), digitChar (x % 10)]
  else
    let ds := utoa x
    List.replicate (width - ds.length) '0' ++ ds

/-- Method `t.Format("2006-01-02-15")` as a character list: four-digit year,
two-digit month, day and 24-hour hour, separated by `-`. -/
def Time.formatChars (t : Time) : List Char :=
  appendInt t.year 4 ++ '-' :: (appendInt t.month 2 ++ '-' ::
    (appendInt t.day 2 ++ '-' :: appendInt t.hour 2))

/-- Method `t.Format("2006-01-02-15")`. -/
def Time.Format (t : Time) : String := String.mk t.formatChars

/-! ## `filepath.Join` (Unix) -/

/-- Splits a path at every `/`. -/
def splitSlash : List Char → List (List Char)
  | [] => [[]]
  | c :: cs =>
    if c = '/' then [] :: splitSlash cs
    else
      match splitSlash cs with
      | [] => [[c]]
      | e :: es => (c :: e) :: es

/-- One element of the lexical processing of `filepath.Clean`; the stack holds
the elements kept so far, last one first. -/
def cleanStep (rooted : Bool) (stack : List (List Char)) (e : List Char) :
    List (List Char) :=
  if e = [] ∨ e = ['.'] then stack
  else if e = ['.', '.'] then
    match stack with
    | [] => if rooted then [] else [e]
    | top :: rest => if top = ['.', '.'] then e :: stack else rest
  else e :: stack

/-- Elements joined with `/`. -/
def joinSlash : List (List Char) → List Char
  | [] => []
  | [e] => e
  | e :: f :: es => e ++ '/' :: joinSlash (f :: es)

/-- Library `filepath.Clean` on a character list. -/
def cleanChars (path : List Char) : List Char :=
  let rooted := path.head? = some '/'
  let stack := (splitSlash path).foldl (cleanStep rooted) []
  let out := (if rooted then ['/'] else []) ++ joinSlash stack.reverse
  if out = [] then ['.'] else out

/-- Library `filepath.Clean`. -/
def filepathClean (path : String) : String := String.mk (cleanChars path.data)

/-- Library `filepath.Join(a, b)`: empty elements are ignored, the rest is joined with
`/` and cleaned. -/
def filepathJoin (a b : String) : String :=
  if a ≠ "" then filepathClean (a ++ "/" ++ b)
  else if b ≠ "" then filepathClean b
  else ""

/-- Lines 39 to 41 of `Write`: the hour-bucket file of the instant `now`. -/
def currentFileOf (basePath : String) (now : Time) : String :=
  filepathJoin basePath ("server-" ++ now.Format ++ ".log")

/-! ## The world outside the router: files, output streams, failures -/

/-- A Go byte slice. -/
abbrev Bytes := List UInt8

/-- The errors the operating system and the sink can answer with. -/
inductive IOErr
  | notExist
  | permission
  | closed
  | other (code : Nat)
  deriving DecidableEq, Repr

/-- Method `Error()` of the error value. -/
def IOErr.Error : IOErr → String
  | .notExist => "no such file or directory"
  | .permission => "permission denied"
  | .closed => "file already closed"
  | .other code => "errno " ++ toString code

/-- Library `os.IsNotExist(err)`. -/
def osIsNotExist : IOErr → Bool
  | .notExist => true
  | _ => false

/-- The file system (content of every existing regular file, by cleaned path)
and what has been printed on the two standard streams, oldest first. -/
structure World where
  files : String → Option Bytes
  stdout : List String
  stderr : List String

/-- Content of a file, empty when the file does not exist. -/
def World.content (w : World) (path : String) : Bytes := (w.files path).getD []

/-- The world with the file at `path` holding `c`. -/
def World.setFile (w : World) (path : String) (c : Bytes) : World :=
  { w with files := fun q => if q = path then some c else w.files q }

/-- Library `fmt.Printf` of an already formatted message: it goes to standard output. -/
def fmtPrintf (w : World) (msg : String) : World :=
  { w with stdout := w.stdout ++ [msg] }

/-- Library `os.Truncate(path, 0)`. When the operating system answers with `fault` the
file is untouched; otherwise a missing file is the error `notExist` and an
existing file becomes empty. -/
def osTruncate (w : World) (path : String) (fault : Option IOErr) : World × Option IOErr :=
  match fault with
  | some e => (w, some e)
  | none =>
    match w.files path with
    | none => (w, some IOErr.notExist)
    | some _ => (w.setFile path [], none)

namespace lumberjack

/-- The exported fields of `lumberjack.Logger`. The open file descriptor the
sink keeps between calls is not part of the model: it always designates the
file at `Filename`, which this program never renames or removes. -/
structure Logger where
  Filename : String
  MaxSize : Nat
  MaxBackups : Nat
  MaxAge : Nat
  Compress : Bool
  deriving DecidableEq, Repr

/-- Result of a sink write: the world after it, and the `(n, err)` returned. -/
structure WriteResult where
  world : World
  n : Nat
  err : Option IOErr

/-- Method `(*Logger).Write(p)`. Without a fault the file at `Filename` is created if
missing and `p` is appended to it (files stay under the `MaxSize` of 1000 MB, so
the sink does not rotate by size); the call returns `(len(p), nil)`. With the
fault `(n, e)` the first `n` bytes reach the file and the call returns
`(n, e)`. -/
def Logger.Write (l : Logger) (w : World) (p : Bytes) (fault : Option (Nat × IOErr)) :
    WriteResult :=
  match fault with
  | none => ⟨w.setFile l.Filename (w.content l.Filename ++ p), p.length, none⟩
  | some (n, e) =>
    ⟨if n = 0 then w else w.setFile l.Filename (w.content l.Filename ++ p.take n), n, some e⟩

/-- Method `(*Logger).Close()`: closes the descriptor if one is open and returns the
error of doing so, which is what the operating system answers. -/
def Logger.Close (_l : Logger) (fault : Option IOErr) : Option IOErr := fault

end lumberjack

open lumberjack (Logger)

/-- Which field of the router a sink operation goes through. -/
inductive Sink
  | bucket
  | live
  deriving DecidableEq, Repr

/-- The operations a call performs on the outside world, in program order. -/
inductive Effect
  | close (s : Sink) (l : Logger) (res : Option IOErr)
  | truncate (path : String) (res : Option IOErr)
  | printf (msg : String)
  | newLogger (s : Sink) (l : Logger)
  | write (s : Sink) (l : Logger) (p : Bytes) (n : Nat) (err : Option IOErr)
  deriving DecidableEq, Repr

/-! ## `timeBasedWriteSyncer` (default.go) -/

/-- The router state; a `nil` pointer is `none`. -/
structure timeBasedWriteSyncer where
  basePath : String
  current : Option Logger
  currentHour : Int
  serverLog : Option Logger
  deriving DecidableEq, Repr

/-- The sink configuration of the live file (lines 28 to 34 and 61 to 67). -/
def liveLogger (path : String) : Logger :=
  { Filename := path, MaxSize := 1000, MaxBackups := 1, MaxAge := 1, Compress := false }

/-- The sink configuration of an hour-bucket file (lines 72 to 78). -/
def bucketLogger (path : String) : Logger :=
  { Filename := path, MaxSize := 1000, MaxBackups := 24, MaxAge := 24, Compress := true }

/-- Constructor `newTimeBasedWriteSyncer`. -/
def newTimeBasedWriteSyncer (basePath : String) : timeBasedWriteSyncer :=
  { basePath := basePath
    current := none
    currentHour := -1
    serverLog := some (liveLogger (filepathJoin basePath "server.log")) }

/-- What the outside world answers during one call of `Write`: the clock, and
the failure, if any, of each operation the call may perform. -/
structure Env where
  now : Time
  closeErr : Option IOErr
  truncErr : Option IOErr
  bucketErr : Option (Nat × IOErr)
  liveErr : Option (Nat × IOErr)

/-- Router state, world and operations after a part of `Write`. -/
structure Step where
  state : timeBasedWriteSyncer
  world : World
  trace : List Effect

/-- The warning of line 56. -/
def truncateWarning (path : String) (e : IOErr) : String :=
  "Warning: failed to truncate server.log: truncate " ++ path ++ ": " ++ e.Error ++ "\n"

/-- Lines 47 to 49: the live sink is closed when there is one; the result of
closing is dropped. -/
def closeLive (w : timeBasedWriteSyncer) (closeErr : Option IOErr) : List Effect :=
  match w.serverLog with
  | some l => [Effect.close Sink.live l (l.Close closeErr)]
  | none => []

/-- Lines 53 to 58: the warning to print for the result of the truncation, if
any: none on success and none when the file does not exist. -/
def warningOf (path : String) (res : Option IOErr) : Option String :=
  match res with
  | some e => if !osIsNotExist e then some (truncateWarning path e) else none
  | none => none

/-- Line 56 when there is a warning to print. -/
def printWarning (world : World) (warn : Option String) : World :=
  match warn with
  | some msg => fmtPrintf world msg
  | none => world

/-- Lines 43 to 68 of `Write`: when the hour of day differs from the recorded
one, record it, close the live sink, truncate the live file and replace the
live sink. -/
def hourChange (w : timeBasedWriteSyncer) (world : World) (env : Env) : Step :=
  let currentHour := env.now.Hour
  if w.currentHour ≠ currentHour then
    let serverLogPath := filepathJoin w.basePath "server.log"
    let tr := osTruncate world serverLogPath env.truncErr
    let warn := warningOf serverLogPath tr.2
    let l := liveLogger serverLogPath
    { state := { w with currentHour := currentHour, serverLog := some l }
      world := printWarning tr.1 warn
      trace := closeLive w env.closeErr ++ [Effect.truncate serverLogPath tr.2]
        ++ warn.toList.map Effect.printf ++ [Effect.newLogger Sink.live l] }
  else { state := w, world := world, trace := [] }

/-- The condition of line 71: there is no hour-bucket sink, or its file name
is not `currentFile`. -/
def staleBucket (w : timeBasedWriteSyncer) (currentFile : String) : Bool :=
  match w.current with
  | none => true
  | some l => decide (l.Filename ≠ currentFile)

/-- Lines 70 to 79 of `Write`: a new hour-bucket sink when there is none or
when its file name is not the one of the current instant. -/
def bucketChange (w : timeBasedWriteSyncer) (env : Env) : timeBasedWriteSyncer × List Effect :=
  let currentFile := currentFileOf w.basePath env.now
  if staleBucket w currentFile then
    ({ w with current := some (bucketLogger currentFile) },
      [Effect.newLogger Sink.bucket (bucketLogger currentFile)])
  else (w, [])

/-- How a call ended: it returned `(n, err)`, or it dereferenced a nil sink. -/
inductive Ret
  | returned (n : Nat) (err : Option IOErr)
  | nilDereference
  deriving DecidableEq, Repr

/-- Everything observable after a call of `Write`. -/
structure Outcome where
  state : timeBasedWriteSyncer
  world : World
  trace : List Effect
  ret : Ret

/-- Lines 81 to 87 of `Write`: write to the hour-bucket sink, and if that
succeeded to the live sink, whose result is returned. -/
def writeBoth (w : timeBasedWriteSyncer) (world : World) (env : Env) (p : Bytes)
    (trace : List Effect) : Outcome :=
  match w.current with
  | none => ⟨w, world, trace, Ret.nilDereference⟩
  | some cur =>
    let r1 := cur.Write world p env.bucketErr
    match r1.err with
    | some e =>
      ⟨w, r1.world, trace ++ [Effect.write Sink.bucket cur p r1.n (some e)], Ret.returned 0 (some e)⟩
    | none =>
      match w.serverLog with
      | none =>
        ⟨w, r1.world, trace ++ [Effect.write Sink.bucket cur p r1.n none], Ret.nilDereference⟩
      | some live =>
        let r2 := live.Write r1.world p env.liveErr
        ⟨w, r2.world,
          trace ++ [Effect.write Sink.bucket cur p r1.n none,
            Effect.write Sink.live live p r2.n r2.err],
          Ret.returned r2.n r2.err⟩

/-- Method `Write` of `timeBasedWriteSyncer`. -/
def Write (w : timeBasedWriteSyncer) (world : World) (env : Env) (p : Bytes) : Outcome :=
  let s1 := hourChange w world env
  let s2 := bucketChange s1.state env
  writeBoth s2.1 s1.world env p (s1.trace ++ s2.2)

/-- What the outside world answers during one call of `Sync`. -/
structure SyncEnv where
  closeCurrent : Option IOErr
  closeLive : Option IOErr

/-- Everything observable after a call of `Sync`. -/
structure SyncOutcome where
  state : timeBasedWriteSyncer
  trace : List Effect
  ret : Option IOErr

/-- Method `Sync` of `timeBasedWriteSyncer`: both sinks are closed when
present, the results of closing are dropped, and `nil` is returned. -/
def Sync (w : timeBasedWriteSyncer) (env : SyncEnv) : SyncOutcome :=
  let t1 :=
    match w.current with
    | some l => [Effect.close Sink.bucket l (l.Close env.closeCurrent)]
    | none => []
  let t2 :=
    match w.serverLog with
    | some l => [Effect.close Sink.live l (l.Close env.closeLive)]
    | none => []
  { state := w, trace := t1 ++ t2, ret := none }

/-- Router states that the package can produce: the constructor's, and those
after any call of `Write` or `Sync`. -/
inductive Reachable (basePath : String) : timeBasedWriteSyncer → Prop
  | init : Reachable basePath (newTimeBasedWriteSyncer basePath)
  | write (w : timeBasedWriteSyncer) (world : World) (env : Env) (p : Bytes) :
      Reachable basePath w → Reachable basePath (Write w world env p).state
  | sync (w : timeBasedWriteSyncer) (env : SyncEnv) :
      Reachable basePath w → Reachable basePath (Sync w env).state

/-! ## `defaultLog` (default.go) and the process registry (log.go) -/

/-- The levels of `zapcore.Level`. -/
inductive Level
  | debug | info | warn | error | dpanic | panic | fatal
  deriving DecidableEq, Repr

/-- The `switch` of `zapcore.Level.unmarshalText`. -/
def unmarshalTextExact (text : String) : Option Level :=
  if text = "debug" ∨ text = "DEBUG" then some Level.debug
  else if text = "info" ∨ text = "INFO" ∨ text = "" then some Level.info
  else if text = "warn" ∨ text = "WARN" then some Level.warn
  else if text = "error" ∨ text = "ERROR" then some Level.error
  else if text = "dpanic" ∨ text = "DPANIC" then some Level.dpanic
  else if text = "panic" ∨ text = "PANIC" then some Level.panic
  else if text = "fatal" ∨ text = "FATAL" then some Level.fatal
  else none

/-- Library `bytes.ToLower` on the letters A to Z. -/
def toLower (text : String) : String := String.mk (text.data.map Char.toLower)

/-- Library `zap.AtomicLevel.UnmarshalText`: the text as it is, then lower-cased;
`none` is the error "unrecognized level". -/
def UnmarshalText (text : String) : Option Level :=
  match unmarshalTextExact text with
  | some l => some l
  | none => unmarshalTextExact (toLower text)

/-- The value `defaultLog` returns: the sugared logger over the tee of the
file core (with its router) and the console core, both at `level`. -/
structure SugaredLogger where
  level : Level
  timeBasedSyncer : timeBasedWriteSyncer
  deriving DecidableEq, Repr

/-- The value a call panicked with. -/
inductive Panic
  | levelError (text : String)
  | mkdirError (path : String) (e : IOErr)
  deriving DecidableEq, Repr

/-- The steps of an initialisation, in program order. -/
inductive InitEffect
  | unmarshalText (text : String)
  | mkdirAll (path : String) (res : Option IOErr)
  | newSyncer (basePath : String)
  | newLogger (l : SugaredLogger)
  deriving DecidableEq, Repr

/-- Result of `defaultLog`: the logger or the panic, and the steps taken. -/
structure BuildOutcome where
  result : Except Panic SugaredLogger
  trace : List InitEffect

/-- Function `defaultLog`; `mkdirErr` is what `os.MkdirAll` answers. -/
def defaultLog (mkdirErr : Option IOErr) (logPath level : String) : BuildOutcome :=
  match UnmarshalText level with
  | none => ⟨Except.error (Panic.levelError level), [InitEffect.unmarshalText level]⟩
  | some logLevel =>
    match mkdirErr with
    | some e =>
      ⟨Except.error (Panic.mkdirError logPath e),
        [InitEffect.unmarshalText level, InitEffect.mkdirAll logPath (some e)]⟩
    | none =>
      let timeBasedSyncer := newTimeBasedWriteSyncer logPath
      let sugar : SugaredLogger := ⟨logLevel, timeBasedSyncer⟩
      ⟨Except.ok sugar,
        [InitEffect.unmarshalText level, InitEffect.mkdirAll logPath none,
          InitEffect.newSyncer logPath, InitEffect.newLogger sugar]⟩

/-- The two package variables of log.go; a nil interface is `none`. -/
structure Registry where
  default_ : Option SugaredLogger
  logger : Option SugaredLogger
  deriving DecidableEq, Repr

/-- The registry at program start. -/
def Registry.zero : Registry := ⟨none, none⟩

/-- Everything observable after a call of `DefaultLog`. -/
structure InitOutcome where
  registry : Registry
  trace : List InitEffect
  panicked : Option Panic

/-- Function `DefaultLog`. -/
def DefaultLog (r : Registry) (mkdirErr : Option IOErr) (logPath level : String) :
    InitOutcome :=
  match r.default_ with
  | some _ => ⟨r, [], none⟩
  | none =>
    let b := defaultLog mkdirErr logPath level
    match b.result with
    | Except.error e => ⟨r, b.trace, some e⟩
    | Except.ok l => ⟨{ default_ := some l, logger := some l }, b.trace, none⟩

/-- Function `Logger`. -/
def Logger (r : Registry) : Option SugaredLogger := r.logger

/-- A path element that `filepath.Clean` keeps as it is: not empty, without
`/`, and neither `.` nor `..`. -/
def PlainElem (name : List Char) : Prop :=
  name ≠ [] ∧ '/' ∉ name ∧ name ≠ ['.'] ∧ name ≠ ['.', '.']

/-- Every element followed by `/`. -/
def slashEach : List (List Char) → List Char
  | [] => []
  | e :: es => e ++ '/' :: slashEach es

/-- The directory part that `filepath.Join(a, name)` puts in front of a plain
last element `name`. -/
def dirChars (a : String) : List Char :=
  if a = "" then []
  else
    let rooted := (a.data ++ ['/']).head? = some '/'
    (if rooted then ['/'] else [])
      ++ slashEach ((splitSlash a.data).foldl (cleanStep rooted) []).reverse

/-! ## Reading a trace -/

/-- The files the hour-bucket sink was asked to write to, in order. -/
def bucketTargets (trace : List Effect) : List String :=
  trace.filterMap fun e =>
    match e with
    | Effect.write Sink.bucket l _ _ _ => some l.Filename
    | _ => none

/-- The buffers handed to the live sink, in order. -/
def liveWrites (trace : List Effect) : List Bytes :=
  trace.filterMap fun e =>
    match e with
    | Effect.write Sink.live _ p _ _ => some p
    | _ => none

/-- The paths that were truncated, in order. -/
def truncations (trace : List Effect) : List String :=
  trace.filterMap fun e =>
    match e with
    | Effect.truncate path _ => some path
    | _ => none

/-- The live sinks that were installed, in order. -/
def liveReplacements (trace : List Effect) : List lumberjack.Logger :=
  trace.filterMap fun e =>
    match e with
    | Effect.newLogger Sink.live l => some l
    | _ => none

/-- The hour-bucket sinks that were installed, in order. -/
def bucketReplacements (trace : List Effect) : List lumberjack.Logger :=
  trace.filterMap fun e =>
    match e with
    | Effect.newLogger Sink.bucket l => some l
    | _ => none

/-- The warnings printed through `fmt.Printf`, in order. -/
def warnings (trace : List Effect) : List String :=
  trace.filterMap fun e =>
    match e with
    | Effect.printf msg => some msg
    | _ => none

/-- A sequence of calls of `Write`, each on the state and world the previous
one left; the outcomes in order. -/
def runWrites (w : timeBasedWriteSyncer) (world : World) :
    List (Env × Bytes) → List Outcome
  | [] => []
  | (env, p) :: rest =>
    (Write w world env p) :: runWrites (Write w world env p).state (Write w world env p).world rest

/-- The instant `a` is not after the instant `b`. -/
def Time.notAfter (a b : Time) : Prop := ¬ b.key < a.key

instance (a b : Time) : Decidable (a.notAfter b) := by
  unfold Time.notAfter; infer_instance

/-! ## Concrete inputs -/

/-- An instant given by its six readings, when they are in range. -/
def mkTime (year month day hour minute second : Nat)
    (h : (1 ≤ month ∧ month ≤ 12) ∧ (1 ≤ day ∧ day ≤ 31) ∧ hour < 24 ∧ minute < 60
      ∧ second < 60) : Time :=
  ⟨year, month, day, hour, minute, second, h.1, h.2.1, h.2.2.1, h.2.2.2.1, h.2.2.2.2⟩

/-- The instant 14:05:00 on 9 March 2024. -/
def t1405 : Time := mkTime 2024 3 9 14 5 0 (by decide)

/-- The instant 14:59:59 on 9 March 2024. -/
def t1459 : Time := mkTime 2024 3 9 14 59 59 (by decide)

/-- The instant 15:00:01 on 9 March 2024. -/
def t1500 : Time := mkTime 2024 3 9 15 0 1 (by decide)

/-- The instant 14:05:00 on 10 March 2024, one day after `t1405`. -/
def t1405next : Time := mkTime 2024 3 10 14 5 0 (by decide)

/-- An empty log directory, nothing printed yet. -/
def emptyWorld : World := ⟨fun _ => none, [], []⟩

/-- A call at the instant `now` during which every operation succeeds. -/
def calmEnv (now : Time) : Env := ⟨now, none, none, none, none⟩

/-- A call at the instant `now` during which truncating answers `e` and every
other operation succeeds. -/
def truncFailEnv (now : Time) (e : IOErr) : Env := ⟨now, none, some e, none, none⟩

/-- A log directory in which only `logs/server.log` exists, holding one byte. -/
def staleWorld : World :=
  ⟨fun q => if q = "logs/server.log" then some [9] else none, [], []⟩

/-- A router over `./logs` with both sinks in place, as after a write at 14:05
on 9 March 2024. -/
def busyRouter : timeBasedWriteSyncer :=
  { basePath := "./logs"
    current := some (bucketLogger "logs/server-2024-03-09-14.log")
    currentHour := 14
    serverLog := some (liveLogger "logs/server.log") }

/-! ## Decimal formatting -/

theorem digitVal_digitChar (d : Nat) (h : d < 10) : digitVal (digitChar d) = d := by
  interval_cases d <;> decide

theorem digitChar_ne_slash (d : Nat) : digitChar d ≠ '/' := by
  unfold digitChar
  split <;> decide

theorem parseDec_utoaAux (fuel : Nat) : ∀ (u : Nat) (acc : List Char), u ≤ fuel →
    (utoaAux fuel u acc).foldl (fun a c => 10 * a + digitVal c) 0
      = acc.foldl (fun a c => 10 * a + digitVal c) u := by
  induction fuel with
  | zero =>
    intro u acc hu
    have h0 : u = 0 := by omega
    subst h0
    simp [utoaAux, digitVal_digitChar]
  | succ fuel ih =>
    intro u acc hu
    unfold utoaAux
    by_cases h10 : 10 ≤ u
    · rw [if_pos h10, ih (u / 10) _ (by omega)]
      have hd : digitVal (digitChar (u % 10)) = u % 10 :=
        digitVal_digitChar _ (Nat.mod_lt _ (by decide))
      simp only [List.foldl_cons, hd]
      congr 1
      omega
    · rw [if_neg h10]
      have hd : digitVal (digitChar u) = u := digitVal_digitChar _ (by omega)
      simp [List.foldl_cons, hd]

theorem parseDec_utoa (u : Nat) : parseDec (utoa u) = u := by
  unfold parseDec utoa
  rw [parseDec_utoaAux u u [] (Nat.le_refl u)]
  rfl

theorem parseDec_zeros (k : Nat) (l : List Char) :
    parseDec (List.replicate k '0' ++ l) = parseDec l := by
  unfold parseDec
  induction k with
  | zero => simp
  | succ k ih =>
    rw [List.replicate_succ, List.cons_append, List.foldl_cons]
    have h0 : 10 * 0 + digitVal '0' = 0 := by decide
    rw [h0]
    exact ih

theorem parseDec_appendInt (x width : Nat) : parseDec (appendInt x width) = x := by
  unfold appendInt
  split
  · rename_i h
    have h1 : digitVal (digitChar (x / 10)) = x / 10 := digitVal_digitChar _ (by omega)
    have h2 : digitVal (digitChar (x % 10)) = x % 10 := digitVal_digitChar _ (by omega)
    simp only [parseDec, List.foldl_cons, List.foldl_nil, h1, h2]
    omega
  · split
    · rename_i h
      have h1 : digitVal (digitChar (x / 1000)) = x / 1000 := digitVal_digitChar _ (by omega)
      have h2 : digitVal (digitChar (x / 100 % 10)) = x / 100 % 10 :=
        digitVal_digitChar _ (by omega)
      have h3 : digitVal (digitChar (x / 10 % 10)) = x / 10 % 10 :=
        digitVal_digitChar _ (by omega)
      have h4 : digitVal (digitChar (x % 10)) = x % 10 := digitVal_digitChar _ (by omega)
      simp only [parseDec, List.foldl_cons, List.foldl_nil, h1, h2, h3, h4]
      omega
    · simp only [parseDec_zeros, parseDec_utoa]

theorem appendInt_two_length (x : Nat) (h : x < 100) : (appendInt x 2).length = 2 := by
  unfold appendInt
  rw [if_pos ⟨rfl, h⟩]
  rfl

theorem utoaAux_no_slash (fuel : Nat) : ∀ (u : Nat) (acc : List Char),
    '/' ∉ acc → '/' ∉ utoaAux fuel u acc := by
  induction fuel with
  | zero =>
    intro u acc hacc
    simp only [utoaAux, List.mem_cons, not_or]
    exact ⟨fun h => digitChar_ne_slash _ h.symm, hacc⟩
  | succ fuel ih =>
    intro u acc hacc
    unfold utoaAux
    split
    · apply ih
      simp only [List.mem_cons, not_or]
      exact ⟨fun h => digitChar_ne_slash _ h.symm, hacc⟩
    · simp only [List.mem_cons, not_or]
      exact ⟨fun h => digitChar_ne_slash _ h.symm, hacc⟩

theorem appendInt_no_slash (x width : Nat) : '/' ∉ appendInt x width := by
  have hd : ∀ d, ¬ '/' = digitChar d := fun d h => digitChar_ne_slash d h.symm
  unfold appendInt
  split
  · simp [hd]
  · split
    · simp [hd]
    · simp only [List.mem_append, not_or]
      refine ⟨?_, utoaAux_no_slash _ _ _ (by simp)⟩
      intro h
      have := List.eq_of_mem_replicate h
      exact absurd this (by decide)

theorem formatChars_no_slash (t : Time) : '/' ∉ t.formatChars := by
  have h := appendInt_no_slash
  have hne : ¬ '/' = '-' := by decide
  simp [Time.formatChars, h, hne]

/-- The formatted hour determines year, month, day and hour. -/
theorem formatChars_inj (t1 t2 : Time) (h : t1.formatChars = t2.formatChars) :
    sameCalendarHour t1 t2 := by
  unfold Time.formatChars at h
  have hm1 := appendInt_two_length t1.month (by have := t1.month_ok; omega)
  have hm2 := appendInt_two_length t2.month (by have := t2.month_ok; omega)
  have hd1 := appendInt_two_length t1.day (by have := t1.day_ok; omega)
  have hd2 := appendInt_two_length t2.day (by have := t2.day_ok; omega)
  have hh1 := appendInt_two_length t1.hour (by have := t1.hour_ok; omega)
  have hh2 := appendInt_two_length t2.hour (by have := t2.hour_ok; omega)
  obtain ⟨hy, h⟩ := List.append_inj' h (by simp [hm1, hm2, hd1, hd2, hh1, hh2])
  rw [List.cons.injEq] at h
  obtain ⟨hm, h⟩ := List.append_inj' h.2 (by simp [hd1, hd2, hh1, hh2])
  rw [List.cons.injEq] at h
  obtain ⟨hd, h⟩ := List.append_inj' h.2 (by simp [hh1, hh2])
  rw [List.cons.injEq] at h
  have e1 := congrArg parseDec hy
  have e2 := congrArg parseDec hm
  have e3 := congrArg parseDec hd
  have e4 := congrArg parseDec h.2
  simp only [parseDec_appendInt] at e1 e2 e3 e4
  exact ⟨e1, e2, e3, e4⟩

theorem format_of_same (t1 t2 : Time) (h : sameCalendarHour t1 t2) :
    t1.Format = t2.Format := by
  obtain ⟨h1, h2, h3, h4⟩ := h
  simp [Time.Format, Time.formatChars, h1, h2, h3, h4]


/-! ## `filepath.Join` keeps a plain last element -/

theorem splitSlash_ne_nil (l : List Char) : splitSlash l ≠ [] := by
  cases l with
  | nil => simp [splitSlash]
  | cons c cs =>
    unfold splitSlash
    split
    · simp
    · split <;> simp

theorem splitSlash_no_slash (n : List Char) (h : '/' ∉ n) : splitSlash n = [n] := by
  induction n with
  | nil => rfl
  | cons c cs ih =>
    simp only [List.mem_cons, not_or] at h
    unfold splitSlash
    rw [if_neg (fun hc => h.1 hc.symm), ih h.2]

theorem splitSlash_append (b n : List Char) :
    splitSlash (b ++ '/' :: n) = splitSlash b ++ splitSlash n := by
  induction b with
  | nil => simp [splitSlash]
  | cons c cs ih =>
    rw [List.cons_append]
    by_cases hc : c = '/'
    · simp [splitSlash, hc, ih]
    · have h1 : splitSlash (c :: (cs ++ '/' :: n))
          = match splitSlash (cs ++ '/' :: n) with
            | [] => [[c]]
            | e :: es => (c :: e) :: es := by
        rw [splitSlash, if_neg hc]
      have h2 : splitSlash (c :: cs)
          = match splitSlash cs with
            | [] => [[c]]
            | e :: es => (c :: e) :: es := by
        rw [splitSlash, if_neg hc]
      rw [h1, h2, ih]
      cases hs : splitSlash cs with
      | nil => exact absurd hs (splitSlash_ne_nil cs)
      | cons e es => simp

theorem cleanStep_plain (rooted : Bool) (stack : List (List Char)) (n : List Char)
    (h : PlainElem n) : cleanStep rooted stack n = n :: stack := by
  obtain ⟨h1, _, h3, h4⟩ := h
  unfold cleanStep
  rw [if_neg (by simp [h1, h3]), if_neg h4]

theorem joinSlash_snoc (xs : List (List Char)) (n : List Char) :
    joinSlash (xs ++ [n]) = slashEach xs ++ n := by
  induction xs with
  | nil => simp [joinSlash, slashEach]
  | cons e es ih =>
    cases es with
    | nil => simp [joinSlash, slashEach]
    | cons f fs =>
      have : joinSlash (e :: f :: fs ++ [n]) = e ++ '/' :: joinSlash (f :: fs ++ [n]) := by
        simp [joinSlash]
      rw [this, ih]
      simp [slashEach]

theorem cleanChars_plain (n : List Char) (h : PlainElem n) : cleanChars n = n := by
  have hs := splitSlash_no_slash n h.2.1
  have hr : ¬ n.head? = some '/' := by
    intro hh
    cases n with
    | nil => simp at hh
    | cons c cs =>
      simp only [List.head?_cons, Option.some.injEq] at hh
      exact h.2.1 (by simp [hh])
  unfold cleanChars
  simp only [hs, List.foldl_cons, List.foldl_nil, cleanStep_plain _ _ n h, hr, decide_False,
    List.reverse_cons, List.reverse_nil, List.nil_append, joinSlash]
  simp [h.1]

theorem cleanChars_join (b n : List Char) (h : PlainElem n) :
    cleanChars (b ++ '/' :: n)
      = (if (b ++ ['/']).head? = some '/' then ['/'] else [])
          ++ slashEach ((splitSlash b).foldl
              (cleanStep (decide ((b ++ ['/']).head? = some '/'))) []).reverse
          ++ n := by
  have hhead : (b ++ '/' :: n).head? = (b ++ ['/']).head? := by
    cases b <;> simp
  unfold cleanChars
  simp only [hhead, splitSlash_append, splitSlash_no_slash n h.2.1, List.foldl_append,
    List.foldl_cons, List.foldl_nil, cleanStep_plain _ _ n h, List.reverse_cons,
    joinSlash_snoc]
  rw [if_neg]
  · simp
  · simp [h.1]

/-- With a plain last element, `filepath.Join` is a directory part that depends
on the first argument only, followed by that element unchanged. -/
theorem filepathJoin_plain (a name : String) (h : PlainElem name.data) :
    (filepathJoin a name).data = dirChars a ++ name.data := by
  have hne : name ≠ "" := by
    intro he
    exact h.1 (by rw [he])
  unfold filepathJoin dirChars
  by_cases ha : a = ""
  · simp only [ha, ne_eq, not_true_eq_false, if_false, hne, not_false_eq_true, if_true,
      filepathClean, List.nil_append]
    exact cleanChars_plain _ h
  · simp only [ne_eq, ha, not_false_eq_true, if_true, if_false, filepathClean,
      String.data_append]
    rw [List.append_assoc, List.singleton_append, cleanChars_join _ _ h]

theorem filepathJoin_inj (a n1 n2 : String) (h1 : PlainElem n1.data) (h2 : PlainElem n2.data)
    (h : filepathJoin a n1 = filepathJoin a n2) : n1 = n2 := by
  have e := congrArg String.data h
  rw [filepathJoin_plain a n1 h1, filepathJoin_plain a n2 h2] at e
  exact String.ext (List.append_cancel_left e)

theorem bucketName_data (t : Time) :
    ("server-" ++ t.Format ++ ".log").data
      = 's' :: 'e' :: 'r' :: 'v' :: 'e' :: 'r' :: '-' :: (t.formatChars ++ ['.', 'l', 'o', 'g']) := by
  simp only [String.data_append, Time.Format]
  rfl

theorem bucketName_plain (t : Time) : PlainElem ("server-" ++ t.Format ++ ".log").data := by
  rw [bucketName_data]
  refine ⟨by simp, ?_, by simp, by simp⟩
  have h := formatChars_no_slash t
  have h1 : ¬ '/' = 's' := by decide
  have h2 : ¬ '/' = 'e' := by decide
  have h3 : ¬ '/' = 'r' := by decide
  have h4 : ¬ '/' = 'v' := by decide
  have h5 : ¬ '/' = '-' := by decide
  have h6 : ¬ '/' = '.' := by decide
  have h7 : ¬ '/' = 'l' := by decide
  have h8 : ¬ '/' = 'o' := by decide
  have h9 : ¬ '/' = 'g' := by decide
  simp [h, h1, h2, h3, h4, h5, h6, h7, h8, h9]

theorem liveName_plain : PlainElem ("server.log" : String).data := by
  refine ⟨by decide, by decide, by decide, by decide⟩

/-- The hour-bucket file names of two instants agree exactly when the instants
are in the same calendar hour. -/
theorem currentFileOf_eq_iff (basePath : String) (t1 t2 : Time) :
    currentFileOf basePath t1 = currentFileOf basePath t2 ↔ sameCalendarHour t1 t2 := by
  constructor
  · intro h
    have hn := filepathJoin_inj basePath _ _ (bucketName_plain t1) (bucketName_plain t2) h
    have hd := congrArg String.data hn
    rw [bucketName_data, bucketName_data] at hd
    simp only [List.cons.injEq, true_and] at hd
    exact formatChars_inj t1 t2 (List.append_cancel_right hd)
  · intro h
    unfold currentFileOf
    rw [format_of_same t1 t2 h]

/-- The live file is never an hour-bucket file. -/
theorem serverLogPath_ne_currentFile (basePath : String) (t : Time) :
    filepathJoin basePath "server.log" ≠ currentFileOf basePath t := by
  intro h
  have hn := filepathJoin_inj basePath _ _ liveName_plain (bucketName_plain t) h
  have hd := congrArg String.data hn
  rw [bucketName_data] at hd
  have hl : ("server.log" : String).data
      = 's' :: 'e' :: 'r' :: 'v' :: 'e' :: 'r' :: '.' :: ['l', 'o', 'g'] := rfl
  rw [hl] at hd
  simp only [List.cons.injEq, true_and] at hd
  exact absurd hd.1 (by decide)


/-! ## The parts of `Write` -/

theorem hourChange_same (w : timeBasedWriteSyncer) (world : World) (env : Env)
    (h : w.currentHour = env.now.Hour) :
    hourChange w world env = { state := w, world := world, trace := [] } := by
  unfold hourChange
  simp [h]

theorem hourChange_diff (w : timeBasedWriteSyncer) (world : World) (env : Env)
    (h : w.currentHour ≠ env.now.Hour) :
    hourChange w world env =
      { state := { w with currentHour := env.now.Hour,
                          serverLog := some (liveLogger (filepathJoin w.basePath "server.log")) }
        world := printWarning (osTruncate world (filepathJoin w.basePath "server.log")
            env.truncErr).1
          (warningOf (filepathJoin w.basePath "server.log")
            (osTruncate world (filepathJoin w.basePath "server.log") env.truncErr).2)
        trace := closeLive w env.closeErr
          ++ [Effect.truncate (filepathJoin w.basePath "server.log")
              (osTruncate world (filepathJoin w.basePath "server.log") env.truncErr).2]
          ++ (warningOf (filepathJoin w.basePath "server.log")
              (osTruncate world (filepathJoin w.basePath "server.log")
                env.truncErr).2).toList.map Effect.printf
          ++ [Effect.newLogger Sink.live (liveLogger (filepathJoin w.basePath "server.log"))] } := by
  unfold hourChange
  simp [h]

theorem hourChange_basePath (w : timeBasedWriteSyncer) (world : World) (env : Env) :
    (hourChange w world env).state.basePath = w.basePath := by
  by_cases h : w.currentHour = env.now.Hour
  · rw [hourChange_same w world env h]
  · rw [hourChange_diff w world env h]

theorem hourChange_currentHour (w : timeBasedWriteSyncer) (world : World) (env : Env) :
    (hourChange w world env).state.currentHour = env.now.Hour := by
  by_cases h : w.currentHour = env.now.Hour
  · rw [hourChange_same w world env h]
    exact h
  · rw [hourChange_diff w world env h]

theorem hourChange_current (w : timeBasedWriteSyncer) (world : World) (env : Env) :
    (hourChange w world env).state.current = w.current := by
  by_cases h : w.currentHour = env.now.Hour
  · rw [hourChange_same w world env h]
  · rw [hourChange_diff w world env h]

theorem hourChange_serverLog (w : timeBasedWriteSyncer) (world : World) (env : Env) :
    (hourChange w world env).state.serverLog
      = if w.currentHour ≠ env.now.Hour
        then some (liveLogger (filepathJoin w.basePath "server.log")) else w.serverLog := by
  by_cases h : w.currentHour = env.now.Hour
  · rw [hourChange_same w world env h, if_neg (not_not.mpr h)]
  · rw [hourChange_diff w world env h, if_pos h]

theorem bucketChange_stale (w : timeBasedWriteSyncer) (env : Env)
    (h : staleBucket w (currentFileOf w.basePath env.now) = true) :
    bucketChange w env =
      ({ w with current := some (bucketLogger (currentFileOf w.basePath env.now)) },
        [Effect.newLogger Sink.bucket (bucketLogger (currentFileOf w.basePath env.now))]) := by
  unfold bucketChange
  simp [h]

theorem bucketChange_fresh (w : timeBasedWriteSyncer) (env : Env)
    (h : staleBucket w (currentFileOf w.basePath env.now) = false) :
    bucketChange w env = (w, []) := by
  unfold bucketChange
  simp [h]

theorem bucketChange_basePath (w : timeBasedWriteSyncer) (env : Env) :
    (bucketChange w env).1.basePath = w.basePath := by
  cases h : staleBucket w (currentFileOf w.basePath env.now)
  · rw [bucketChange_fresh w env h]
  · rw [bucketChange_stale w env h]

theorem bucketChange_currentHour (w : timeBasedWriteSyncer) (env : Env) :
    (bucketChange w env).1.currentHour = w.currentHour := by
  cases h : staleBucket w (currentFileOf w.basePath env.now)
  · rw [bucketChange_fresh w env h]
  · rw [bucketChange_stale w env h]

theorem bucketChange_serverLog (w : timeBasedWriteSyncer) (env : Env) :
    (bucketChange w env).1.serverLog = w.serverLog := by
  cases h : staleBucket w (currentFileOf w.basePath env.now)
  · rw [bucketChange_fresh w env h]
  · rw [bucketChange_stale w env h]

/-- After lines 70 to 79 the hour-bucket sink exists and targets the file of the
current instant. -/
theorem bucketChange_current (w : timeBasedWriteSyncer) (env : Env) :
    ∃ l : lumberjack.Logger, (bucketChange w env).1.current = some l
      ∧ l.Filename = currentFileOf w.basePath env.now := by
  cases h : staleBucket w (currentFileOf w.basePath env.now)
  · rw [bucketChange_fresh w env h]
    unfold staleBucket at h
    cases hc : w.current with
    | none => simp [hc] at h
    | some l =>
      simp only [hc, decide_eq_false_iff_not, ne_eq, not_not] at h
      exact ⟨l, rfl, h⟩
  · rw [bucketChange_stale w env h]
    exact ⟨_, rfl, rfl⟩

theorem writeBoth_state (w : timeBasedWriteSyncer) (world : World) (env : Env) (p : Bytes)
    (trace : List Effect) : (writeBoth w world env p trace).state = w := by
  unfold writeBoth
  cases w.current with
  | none => rfl
  | some cur =>
    simp only
    cases (cur.Write world p env.bucketErr).err with
    | some e => rfl
    | none =>
      simp only
      cases w.serverLog <;> rfl

theorem Write_state (w : timeBasedWriteSyncer) (world : World) (env : Env) (p : Bytes) :
    (Write w world env p).state = (bucketChange (hourChange w world env).state env).1 := by
  unfold Write
  exact writeBoth_state _ _ _ _ _

theorem Write_basePath (w : timeBasedWriteSyncer) (world : World) (env : Env) (p : Bytes) :
    (Write w world env p).state.basePath = w.basePath := by
  rw [Write_state, bucketChange_basePath, hourChange_basePath]

theorem bucketTargets_hourChange (w : timeBasedWriteSyncer) (world : World) (env : Env) :
    bucketTargets (hourChange w world env).trace = [] := by
  by_cases h : w.currentHour = env.now.Hour
  · rw [hourChange_same w world env h]
    rfl
  · rw [hourChange_diff w world env h]
    unfold closeLive
    cases w.serverLog <;>
      cases warningOf (filepathJoin w.basePath "server.log")
        (osTruncate world (filepathJoin w.basePath "server.log") env.truncErr).2 <;>
      simp [bucketTargets]

theorem bucketTargets_bucketChange (w : timeBasedWriteSyncer) (env : Env) :
    bucketTargets (bucketChange w env).2 = [] := by
  cases h : staleBucket w (currentFileOf w.basePath env.now)
  · rw [bucketChange_fresh w env h]
    rfl
  · rw [bucketChange_stale w env h]
    rfl

theorem bucketTargets_writeBoth (w : timeBasedWriteSyncer) (world : World) (env : Env)
    (p : Bytes) (trace : List Effect) (l : lumberjack.Logger) (h : w.current = some l) :
    bucketTargets (writeBoth w world env p trace).trace = bucketTargets trace ++ [l.Filename] := by
  unfold writeBoth
  rw [h]
  simp only
  cases (l.Write world p env.bucketErr).err with
  | some e => simp [bucketTargets]
  | none =>
    simp only
    cases w.serverLog <;> simp [bucketTargets]

/-- The hour-bucket sink is written to exactly once per call, at the file of
the current instant. -/
theorem bucketTargets_Write (w : timeBasedWriteSyncer) (world : World) (env : Env) (p : Bytes) :
    bucketTargets (Write w world env p).trace = [currentFileOf w.basePath env.now] := by
  obtain ⟨l, hl, hf⟩ := bucketChange_current (hourChange w world env).state env
  unfold Write
  rw [bucketTargets_writeBoth _ _ _ _ _ l hl, hf, hourChange_basePath]
  simp [bucketTargets, List.filterMap_append] 
  have h1 := bucketTargets_hourChange w world env
  have h2 := bucketTargets_bucketChange (hourChange w world env).state env
  unfold bucketTargets at h1 h2
  simp [h1, h2]


/-! ## Files -/

theorem content_setFile (w : World) (path q : String) (c : Bytes) :
    (w.setFile path c).content q = if q = path then c else w.content q := by
  unfold World.content World.setFile
  by_cases h : q = path <;> simp [h]

theorem stdout_setFile (w : World) (path : String) (c : Bytes) :
    (w.setFile path c).stdout = w.stdout := rfl

theorem stderr_setFile (w : World) (path : String) (c : Bytes) :
    (w.setFile path c).stderr = w.stderr := rfl

theorem content_printWarning (w : World) (warn : Option String) (q : String) :
    (printWarning w warn).content q = w.content q := by
  cases warn <;> rfl

theorem stderr_printWarning (w : World) (warn : Option String) :
    (printWarning w warn).stderr = w.stderr := by
  cases warn <;> rfl

theorem stdout_printWarning (w : World) (warn : Option String) :
    (printWarning w warn).stdout = w.stdout ++ warn.toList := by
  cases warn <;> simp [printWarning, fmtPrintf]

theorem osTruncate_fault (w : World) (path : String) (e : IOErr) :
    osTruncate w path (some e) = (w, some e) := rfl

/-- Without a fault the file is empty afterwards, whether it existed or not. -/
theorem osTruncate_content (w : World) (path q : String) :
    (osTruncate w path none).1.content q = if q = path then [] else w.content q := by
  unfold osTruncate
  cases hf : w.files path with
  | none =>
    by_cases h : q = path
    · simp [h, World.content, hf]
    · simp [h]
  | some c => simp [content_setFile]

theorem osTruncate_result (w : World) (path : String) :
    (osTruncate w path none).2 = if (w.files path).isSome then none else some IOErr.notExist := by
  unfold osTruncate
  cases hf : w.files path <;> simp

theorem osTruncate_stdout (w : World) (path : String) (f : Option IOErr) :
    (osTruncate w path f).1.stdout = w.stdout := by
  unfold osTruncate
  cases f with
  | some e => rfl
  | none => cases w.files path <;> rfl

theorem osTruncate_stderr (w : World) (path : String) (f : Option IOErr) :
    (osTruncate w path f).1.stderr = w.stderr := by
  unfold osTruncate
  cases f with
  | some e => rfl
  | none => cases w.files path <;> rfl

theorem Logger_Write_err (l : lumberjack.Logger) (w : World) (p : Bytes)
    (f : Option (Nat × IOErr)) : (l.Write w p f).err = f.map Prod.snd := by
  cases f <;> rfl

theorem Logger_Write_content (l : lumberjack.Logger) (w : World) (p : Bytes) (q : String) :
    (l.Write w p none).world.content q
      = if q = l.Filename then w.content l.Filename ++ p else w.content q := by
  simp [lumberjack.Logger.Write, content_setFile]

theorem Logger_Write_other (l : lumberjack.Logger) (w : World) (p : Bytes)
    (f : Option (Nat × IOErr)) (q : String) (h : q ≠ l.Filename) :
    (l.Write w p f).world.content q = w.content q := by
  cases f with
  | none => simp [lumberjack.Logger.Write, content_setFile, h]
  | some ne =>
    obtain ⟨n, e⟩ := ne
    by_cases hn : n = 0 <;> simp [lumberjack.Logger.Write, content_setFile, h, hn]

theorem Logger_Write_stdout (l : lumberjack.Logger) (w : World) (p : Bytes)
    (f : Option (Nat × IOErr)) : (l.Write w p f).world.stdout = w.stdout := by
  cases f with
  | none => rfl
  | some ne =>
    obtain ⟨n, e⟩ := ne
    by_cases hn : n = 0 <;> simp [lumberjack.Logger.Write, hn, stdout_setFile]

theorem Logger_Write_stderr (l : lumberjack.Logger) (w : World) (p : Bytes)
    (f : Option (Nat × IOErr)) : (l.Write w p f).world.stderr = w.stderr := by
  cases f with
  | none => rfl
  | some ne =>
    obtain ⟨n, e⟩ := ne
    by_cases hn : n = 0 <;> simp [lumberjack.Logger.Write, hn, stderr_setFile]

/-! ## Reachable router states -/

/-- In every reachable state the base path is the constructor's and the live
sink exists and targets `basePath/server.log`. -/
theorem Reachable.inv {basePath : String} {w : timeBasedWriteSyncer} (h : Reachable basePath w) :
    w.basePath = basePath
      ∧ ∃ l : lumberjack.Logger, w.serverLog = some l
          ∧ l.Filename = filepathJoin basePath "server.log" := by
  induction h with
  | init => exact ⟨rfl, _, rfl, rfl⟩
  | write w world env p _ ih =>
    obtain ⟨hb, l, hl, hf⟩ := ih
    refine ⟨by rw [Write_basePath, hb], ?_⟩
    rw [Write_state, bucketChange_serverLog, hourChange_serverLog]
    by_cases hc : w.currentHour = env.now.Hour
    · rw [if_neg (not_not.mpr hc)]
      exact ⟨l, hl, hf⟩
    · rw [if_pos hc, hb]
      exact ⟨_, rfl, rfl⟩
  | sync w env _ ih => exact ih

/-- The state in which `writeBoth` runs keeps the live sink on
`basePath/server.log`. -/
theorem live_before_writes (basePath : String) (w : timeBasedWriteSyncer)
    (h : Reachable basePath w) (world : World) (env : Env) :
    ∃ l : lumberjack.Logger,
      (bucketChange (hourChange w world env).state env).1.serverLog = some l
        ∧ l.Filename = filepathJoin basePath "server.log" := by
  have hr := (Reachable.write w world env [] h).inv
  rw [Write_state] at hr
  exact hr.2

theorem bucket_before_writes (basePath : String) (w : timeBasedWriteSyncer)
    (h : Reachable basePath w) (world : World) (env : Env) :
    ∃ l : lumberjack.Logger,
      (bucketChange (hourChange w world env).state env).1.current = some l
        ∧ l.Filename = currentFileOf basePath env.now := by
  obtain ⟨l, hl, hf⟩ := bucketChange_current (hourChange w world env).state env
  rw [hourChange_basePath, h.inv.1] at hf
  exact ⟨l, hl, hf⟩

/-! ## The two sink writes -/

theorem writeBoth_bucket_failed (w : timeBasedWriteSyncer) (world : World) (env : Env)
    (p : Bytes) (trace : List Effect) (cur : lumberjack.Logger) (n : Nat) (e : IOErr)
    (hc : w.current = some cur) (hf : env.bucketErr = some (n, e)) :
    writeBoth w world env p trace =
      ⟨w, (cur.Write world p (some (n, e))).world,
        trace ++ [Effect.write Sink.bucket cur p n (some e)], Ret.returned 0 (some e)⟩ := by
  unfold writeBoth
  rw [hc, hf]
  rfl

theorem writeBoth_bucket_ok (w : timeBasedWriteSyncer) (world : World) (env : Env)
    (p : Bytes) (trace : List Effect) (cur live : lumberjack.Logger)
    (hc : w.current = some cur) (hl : w.serverLog = some live) (hf : env.bucketErr = none) :
    writeBoth w world env p trace =
      ⟨w, (live.Write (cur.Write world p none).world p env.liveErr).world,
        trace ++ [Effect.write Sink.bucket cur p p.length none,
          Effect.write Sink.live live p (live.Write (cur.Write world p none).world p env.liveErr).n
            (live.Write (cur.Write world p none).world p env.liveErr).err],
        Ret.returned (live.Write (cur.Write world p none).world p env.liveErr).n
          (live.Write (cur.Write world p none).world p env.liveErr).err⟩ := by
  unfold writeBoth
  rw [hc, hl, hf]
  rfl

/-! ## Traces of the two preparation steps -/

theorem liveWrites_hourChange (w : timeBasedWriteSyncer) (world : World) (env : Env) :
    liveWrites (hourChange w world env).trace = [] := by
  by_cases h : w.currentHour = env.now.Hour
  · rw [hourChange_same w world env h]
    rfl
  · rw [hourChange_diff w world env h]
    unfold closeLive
    cases w.serverLog <;>
      cases warningOf (filepathJoin w.basePath "server.log")
        (osTruncate world (filepathJoin w.basePath "server.log") env.truncErr).2 <;>
      simp [liveWrites]

theorem liveWrites_bucketChange (w : timeBasedWriteSyncer) (env : Env) :
    liveWrites (bucketChange w env).2 = [] := by
  cases h : staleBucket w (currentFileOf w.basePath env.now)
  · rw [bucketChange_fresh w env h]
    rfl
  · rw [bucketChange_stale w env h]
    rfl

theorem liveWrites_append (t1 t2 : List Effect) :
    liveWrites (t1 ++ t2) = liveWrites t1 ++ liveWrites t2 := by
  simp [liveWrites, List.filterMap_append]

/-! ## Result of `Write` -/

/-- C4. If the write to the hour-bucket sink fails with `e`, `Write` returns
`(0, e)`, performs no write on the live sink, and the live file is as the
preparation left it; if the hour-bucket write succeeds, `Write` returns exactly
the `(n, err)` of the live sink's write, success or failure. The live sink is
there in every state the package can produce. -/
theorem write_result (w : timeBasedWriteSyncer) (world : World) (env : Env) (p : Bytes) :
    (∀ n e, env.bucketErr = some (n, e) →
      (Write w world env p).ret = Ret.returned 0 (some e)
        ∧ liveWrites (Write w world env p).trace = []
        ∧ (Write w world env p).world.content (filepathJoin w.basePath "server.log")
            = (hourChange w world env).world.content (filepathJoin w.basePath "server.log"))
    ∧ (env.bucketErr = none →
      ∀ live : lumberjack.Logger, (Write w world env p).state.serverLog = some live →
        ∃ cur : lumberjack.Logger,
          (Write w world env p).state.current = some cur
            ∧ (Write w world env p).ret
                = Ret.returned
                    (live.Write (cur.Write (hourChange w world env).world p none).world p
                      env.liveErr).n
                    (live.Write (cur.Write (hourChange w world env).world p none).world p
                      env.liveErr).err
            ∧ (env.liveErr = none → (Write w world env p).ret = Ret.returned p.length none)
            ∧ (∀ n e, env.liveErr = some (n, e) →
                (Write w world env p).ret = Ret.returned n (some e)))
    ∧ (∀ basePath : String, Reachable basePath w →
        ∃ live : lumberjack.Logger, (Write w world env p).state.serverLog = some live) := by
  obtain ⟨cur, hcur, hfn⟩ := bucketChange_current (hourChange w world env).state env
  rw [hourChange_basePath] at hfn
  refine ⟨?_, ?_, ?_⟩
  · intro n e hf
    unfold Write
    rw [writeBoth_bucket_failed _ _ _ _ _ cur n e hcur hf]
    refine ⟨rfl, ?_, ?_⟩
    · simp [liveWrites_append, liveWrites_hourChange, liveWrites_bucketChange]
      rfl
    · apply Logger_Write_other
      rw [hfn]
      exact serverLogPath_ne_currentFile w.basePath env.now
  · intro hf live hlive
    rw [Write_state] at hlive
    refine ⟨cur, ?_, ?_⟩
    · rw [Write_state, hcur]
    · have hw : Write w world env p = _ :=
        writeBoth_bucket_ok _ (hourChange w world env).world env p _ cur live hcur hlive hf
      rw [hw]
      refine ⟨rfl, ?_, ?_⟩
      · intro h0
        rw [h0]
        rfl
      · intro n e h0
        rw [h0]
        rfl
  · intro basePath hr
    obtain ⟨live, hlive, _⟩ := live_before_writes basePath w hr world env
    exact ⟨live, by rw [Write_state, hlive]⟩

/-- A failing hour-bucket write and a failing live write on a fresh router. -/
theorem write_result_witness :
    (Write (newTimeBasedWriteSyncer "./logs") emptyWorld
        ⟨t1405, none, none, some (0, IOErr.permission), none⟩ [7]).ret
      = Ret.returned 0 (some IOErr.permission)
    ∧ (Write (newTimeBasedWriteSyncer "./logs") emptyWorld
        ⟨t1405, none, none, none, some (0, IOErr.other 28)⟩ [7]).ret
      = Ret.returned 0 (some (IOErr.other 28)) :=
  ⟨((write_result (newTimeBasedWriteSyncer "./logs") emptyWorld
      ⟨t1405, none, none, some (0, IOErr.permission), none⟩ [7]).1 0 IOErr.permission rfl).1,
    by
      obtain ⟨live, hlive⟩ := (write_result (newTimeBasedWriteSyncer "./logs") emptyWorld
        ⟨t1405, none, none, none, some (0, IOErr.other 28)⟩ [7]).2.2 "./logs" Reachable.init
      obtain ⟨_, _, _, _, h⟩ := (write_result (newTimeBasedWriteSyncer "./logs") emptyWorld
        ⟨t1405, none, none, none, some (0, IOErr.other 28)⟩ [7]).2.1 rfl live hlive
      exact h 0 (IOErr.other 28) rfl⟩

/-! ## The state after `Write` -/

theorem hourChange_trace_same (w : timeBasedWriteSyncer) (world : World) (env : Env)
    (h : w.currentHour = env.now.Hour) : (hourChange w world env).trace = [] := by
  rw [hourChange_same w world env h]

theorem bucketReplacements_hourChange (w : timeBasedWriteSyncer) (world : World) (env : Env) :
    bucketReplacements (hourChange w world env).trace = [] := by
  by_cases h : w.currentHour = env.now.Hour
  · rw [hourChange_same w world env h]
    rfl
  · rw [hourChange_diff w world env h]
    unfold closeLive
    cases w.serverLog <;>
      cases warningOf (filepathJoin w.basePath "server.log")
        (osTruncate world (filepathJoin w.basePath "server.log") env.truncErr).2 <;>
      simp [bucketReplacements]

/-- The sink writes add write operations only, after what was already done. -/
theorem writeBoth_trace (w : timeBasedWriteSyncer) (world : World) (env : Env) (p : Bytes)
    (trace : List Effect) :
    ∃ ws : List Effect, (writeBoth w world env p trace).trace = trace ++ ws
      ∧ ∀ e ∈ ws, ∃ s l q n err, e = Effect.write s l q n err := by
  unfold writeBoth
  cases w.current with
  | none => exact ⟨[], by simp, by simp⟩
  | some cur =>
    simp only
    cases (cur.Write world p env.bucketErr).err with
    | some e => exact ⟨[_], rfl, by simp⟩
    | none =>
      simp only
      cases w.serverLog with
      | none => exact ⟨[_], rfl, by simp⟩
      | some live =>
        refine ⟨[_, _], rfl, ?_⟩
        intro e he
        simp only [List.mem_cons, List.mem_singleton, List.not_mem_nil, or_false] at he
        rcases he with he | he
        · exact ⟨_, _, _, _, _, he⟩
        · exact ⟨_, _, _, _, _, he⟩

theorem bucketReplacements_writes (ws : List Effect)
    (h : ∀ e ∈ ws, ∃ s l q n err, e = Effect.write s l q n err) :
    bucketReplacements ws = [] := by
  unfold bucketReplacements
  rw [List.filterMap_eq_nil_iff]
  intro e he
  obtain ⟨s, l, q, n, err, rfl⟩ := h e he
  rfl

theorem liveReplacements_writes (ws : List Effect)
    (h : ∀ e ∈ ws, ∃ s l q n err, e = Effect.write s l q n err) :
    liveReplacements ws = [] := by
  unfold liveReplacements
  rw [List.filterMap_eq_nil_iff]
  intro e he
  obtain ⟨s, l, q, n, err, rfl⟩ := h e he
  rfl

theorem truncations_writes (ws : List Effect)
    (h : ∀ e ∈ ws, ∃ s l q n err, e = Effect.write s l q n err) :
    truncations ws = [] := by
  unfold truncations
  rw [List.filterMap_eq_nil_iff]
  intro e he
  obtain ⟨s, l, q, n, err, rfl⟩ := h e he
  rfl

theorem warnings_writes (ws : List Effect)
    (h : ∀ e ∈ ws, ∃ s l q n err, e = Effect.write s l q n err) :
    warnings ws = [] := by
  unfold warnings
  rw [List.filterMap_eq_nil_iff]
  intro e he
  obtain ⟨s, l, q, n, err, rfl⟩ := h e he
  rfl

theorem bucketReplacements_append (t1 t2 : List Effect) :
    bucketReplacements (t1 ++ t2) = bucketReplacements t1 ++ bucketReplacements t2 := by
  simp [bucketReplacements, List.filterMap_append]

theorem liveReplacements_append (t1 t2 : List Effect) :
    liveReplacements (t1 ++ t2) = liveReplacements t1 ++ liveReplacements t2 := by
  simp [liveReplacements, List.filterMap_append]

theorem truncations_append (t1 t2 : List Effect) :
    truncations (t1 ++ t2) = truncations t1 ++ truncations t2 := by
  simp [truncations, List.filterMap_append]

theorem warnings_append (t1 t2 : List Effect) :
    warnings (t1 ++ t2) = warnings t1 ++ warnings t2 := by
  simp [warnings, List.filterMap_append]

/-- The hour-bucket sinks installed by a call are those of lines 70 to 79. -/
theorem bucketReplacements_Write (w : timeBasedWriteSyncer) (world : World) (env : Env)
    (p : Bytes) :
    bucketReplacements (Write w world env p).trace
      = bucketReplacements (bucketChange (hourChange w world env).state env).2 := by
  unfold Write
  obtain ⟨ws, hws, hall⟩ := writeBoth_trace (bucketChange (hourChange w world env).state env).1
    (hourChange w world env).world env p
    ((hourChange w world env).trace ++ (bucketChange (hourChange w world env).state env).2)
  rw [hws, bucketReplacements_append, bucketReplacements_append, bucketReplacements_hourChange,
    bucketReplacements_writes ws hall]
  simp

/-- C8. After every call of `Write` at the instant `now`, from any router
state and whatever the call returns, the recorded hour is `now.Hour()` (in
0..23, never -1) and the hour-bucket sink exists and targets
`basePath/server-<YYYY-MM-DD-HH of now>.log`; when the previous hour-bucket sink
was that of another date with the same hour of day, it is replaced. The live
sink exists and targets `basePath/server.log` whenever the hour of day changed,
and in every state the package can produce. -/
theorem rotation_state_invariant (w : timeBasedWriteSyncer) (world : World) (env : Env)
    (p : Bytes) :
    (Write w world env p).state.currentHour = env.now.Hour
    ∧ 0 ≤ (Write w world env p).state.currentHour
    ∧ (Write w world env p).state.currentHour ≤ 23
    ∧ (Write w world env p).state.currentHour ≠ -1
    ∧ (Write w world env p).state.basePath = w.basePath
    ∧ (∃ cur : lumberjack.Logger, (Write w world env p).state.current = some cur
        ∧ cur.Filename = filepathJoin w.basePath ("server-" ++ env.now.Format ++ ".log"))
    ∧ (w.currentHour ≠ env.now.Hour →
        (Write w world env p).state.serverLog
          = some (liveLogger (filepathJoin w.basePath "server.log")))
    ∧ (∀ basePath : String, Reachable basePath w →
        w.basePath = basePath
          ∧ ∃ live : lumberjack.Logger, (Write w world env p).state.serverLog = some live
              ∧ live.Filename = filepathJoin basePath "server.log")
    ∧ (∀ (old : lumberjack.Logger) (before : Time), w.current = some old →
        old.Filename = currentFileOf w.basePath before → before.hour = env.now.hour →
        ¬ sameCalendarHour before env.now →
        (Write w world env p).state.current
            = some (bucketLogger (currentFileOf w.basePath env.now))
          ∧ bucketReplacements (Write w world env p).trace
              = [bucketLogger (currentFileOf w.basePath env.now)]) := by
  have hh : (Write w world env p).state.currentHour = env.now.Hour := by
    rw [Write_state, bucketChange_currentHour, hourChange_currentHour]
  have hlt := env.now.hour_ok
  refine ⟨hh, ?_, ?_, ?_, Write_basePath w world env p, ?_, ?_, ?_, ?_⟩
  · rw [hh]; unfold Time.Hour; omega
  · rw [hh]; unfold Time.Hour; omega
  · rw [hh]; unfold Time.Hour; omega
  · rw [Write_state]
    obtain ⟨cur, hcur, hfn⟩ := bucketChange_current (hourChange w world env).state env
    rw [hourChange_basePath] at hfn
    exact ⟨cur, hcur, hfn⟩
  · intro hchange
    rw [Write_state, bucketChange_serverLog, hourChange_serverLog, if_pos hchange]
  · intro basePath hr
    rw [Write_state]
    exact ⟨hr.inv.1, live_before_writes basePath w hr world env⟩
  · intro old before hold hname _ hdiff
    have hstale : staleBucket (hourChange w world env).state
        (currentFileOf (hourChange w world env).state.basePath env.now) = true := by
      unfold staleBucket
      rw [hourChange_current, hold, hourChange_basePath]
      simp only [decide_eq_true_eq, hname]
      intro he
      exact hdiff ((currentFileOf_eq_iff w.basePath before env.now).mp he)
    rw [bucketReplacements_Write, Write_state, bucketChange_stale _ env hstale,
      hourChange_basePath]
    exact ⟨rfl, rfl⟩

/-- The router after a write at 14:05 on 9 March, written to again one day
later at 14:05: same hour of day, the hour-bucket sink is that of 10 March. -/
theorem rotation_state_invariant_witness :
    (Write (Write (newTimeBasedWriteSyncer "./logs") emptyWorld (calmEnv t1405) [1]).state
        emptyWorld (calmEnv t1405next) [2]).state.currentHour = 14
    ∧ (Write (Write (newTimeBasedWriteSyncer "./logs") emptyWorld (calmEnv t1405) [1]).state
        emptyWorld (calmEnv t1405next) [2]).state.current
        = some (bucketLogger "logs/server-2024-03-10-14.log")
    ∧ (∃ live : lumberjack.Logger,
        (Write (Write (newTimeBasedWriteSyncer "./logs") emptyWorld (calmEnv t1405) [1]).state
          emptyWorld (calmEnv t1405next) [2]).state.serverLog = some live
        ∧ live.Filename = filepathJoin "./logs" "server.log") :=
  have h := rotation_state_invariant
    (Write (newTimeBasedWriteSyncer "./logs") emptyWorld (calmEnv t1405) [1]).state
    emptyWorld (calmEnv t1405next) [2]
  ⟨h.1, (h.2.2.2.2.2.2.2.2 (bucketLogger "logs/server-2024-03-09-14.log") t1405
      (by decide) (by decide) (by decide) (by decide)).1,
    (h.2.2.2.2.2.2.2.1 "./logs" (Reachable.write _ _ _ _ Reachable.init)).2⟩

/-! ## File contents after `Write` -/

theorem hourChange_content_other (w : timeBasedWriteSyncer) (world : World) (env : Env)
    (q : String) (hq : q ≠ filepathJoin w.basePath "server.log") :
    (hourChange w world env).world.content q = world.content q := by
  by_cases h : w.currentHour = env.now.Hour
  · rw [hourChange_same w world env h]
  · rw [hourChange_diff w world env h]
    simp only [content_printWarning]
    cases hf : env.truncErr with
    | some e => rfl
    | none => rw [osTruncate_content, if_neg hq]

theorem hourChange_content_truncated (w : timeBasedWriteSyncer) (world : World) (env : Env)
    (h : w.currentHour ≠ env.now.Hour) (ht : env.truncErr = none) :
    (hourChange w world env).world.content (filepathJoin w.basePath "server.log") = [] := by
  rw [hourChange_diff w world env h]
  simp only [content_printWarning, ht, osTruncate_content, if_true]

theorem hourChange_content_kept (w : timeBasedWriteSyncer) (world : World) (env : Env)
    (e : IOErr) (ht : env.truncErr = some e) (q : String) :
    (hourChange w world env).world.content q = world.content q := by
  by_cases h : w.currentHour = env.now.Hour
  · rw [hourChange_same w world env h]
  · rw [hourChange_diff w world env h]
    simp only [content_printWarning, ht, osTruncate_fault]

/-- When both sink writes succeed, the bytes are appended to the hour-bucket
file and to the live file as the preparation left them, and to no other file. -/
theorem Write_content (basePath : String) (w : timeBasedWriteSyncer)
    (hr : Reachable basePath w) (world : World) (env : Env) (p : Bytes)
    (hb : env.bucketErr = none) (hl : env.liveErr = none) (q : String) :
    (Write w world env p).world.content q
      = if q = filepathJoin basePath "server.log" ∨ q = currentFileOf basePath env.now
        then (hourChange w world env).world.content q ++ p
        else (hourChange w world env).world.content q := by
  obtain ⟨cur, hcur, hfn⟩ := bucket_before_writes basePath w hr world env
  obtain ⟨live, hlive, hln⟩ := live_before_writes basePath w hr world env
  have hw : Write w world env p = _ :=
    writeBoth_bucket_ok _ (hourChange w world env).world env p _ cur live hcur hlive hb
  have hne := serverLogPath_ne_currentFile basePath env.now
  rw [hw, hl]
  simp only [Logger_Write_content, hln, hfn]
  by_cases h1 : q = filepathJoin basePath "server.log"
  · simp [h1, hne]
  · by_cases h2 : q = currentFileOf basePath env.now
    · simp [h2, hne.symm]
    · simp [h1, h2]

/-- A call that returned without error had no failing sink write. -/
theorem Write_success (basePath : String) (w : timeBasedWriteSyncer)
    (hr : Reachable basePath w) (world : World) (env : Env) (p : Bytes) (n : Nat)
    (h : (Write w world env p).ret = Ret.returned n none) :
    env.bucketErr = none ∧ env.liveErr = none := by
  obtain ⟨cur, hcur, _⟩ := bucket_before_writes basePath w hr world env
  obtain ⟨live, hlive, _⟩ := live_before_writes basePath w hr world env
  cases hb : env.bucketErr with
  | some ne =>
    obtain ⟨m, e⟩ := ne
    have hw : Write w world env p = _ :=
      writeBoth_bucket_failed _ (hourChange w world env).world env p _ cur m e hcur hb
    rw [hw] at h
    simp at h
  | none =>
    have hw : Write w world env p = _ :=
      writeBoth_bucket_ok _ (hourChange w world env).world env p _ cur live hcur hlive hb
    rw [hw] at h
    simp only [Ret.returned.injEq, Logger_Write_err] at h
    cases hl : env.liveErr with
    | none => exact ⟨rfl, rfl⟩
    | some ne =>
      rw [hl] at h
      simp at h

/-- After a call whose sink writes succeeded the live file exists. -/
theorem Write_live_exists (basePath : String) (w : timeBasedWriteSyncer)
    (hr : Reachable basePath w) (world : World) (env : Env) (p : Bytes)
    (hb : env.bucketErr = none) (hl : env.liveErr = none) :
    ((Write w world env p).world.files (filepathJoin basePath "server.log")).isSome = true := by
  obtain ⟨cur, hcur, hfn⟩ := bucket_before_writes basePath w hr world env
  obtain ⟨live, hlive, hln⟩ := live_before_writes basePath w hr world env
  have hw : Write w world env p = _ :=
    writeBoth_bucket_ok _ (hourChange w world env).world env p _ cur live hcur hlive hb
  rw [hw, hl]
  simp [lumberjack.Logger.Write, World.setFile, hln]

/-- What the hour-change step did comes first in the trace of `Write`. -/
theorem Write_trace_prefix (w : timeBasedWriteSyncer) (world : World) (env : Env) (p : Bytes)
    (e : Effect) (h : e ∈ (hourChange w world env).trace) : e ∈ (Write w world env p).trace := by
  unfold Write
  obtain ⟨ws, hws, _⟩ := writeBoth_trace (bucketChange (hourChange w world env).state env).1
    (hourChange w world env).world env p
    ((hourChange w world env).trace ++ (bucketChange (hourChange w world env).state env).2)
  rw [hws]
  simp [h]

/-! ## Truncation of the live file at an hour change -/

/-- C2. After a successful `Write` of `p1` at an instant of hour H, a following
`Write` of `p2` at an instant of hour H+1 during which the truncation and both
sink writes succeed leaves exactly `p2` in `basePath/server.log`; the bucket
files of the two instants are distinct, the first holds what it held before
followed by `p1`, the second what it held before followed by `p2`. -/
theorem live_truncated_on_boundary (basePath : String) (w : timeBasedWriteSyncer)
    (hr : Reachable basePath w) (world : World) (env1 env2 : Env) (p1 p2 : Bytes) (n : Nat)
    (hnext : env2.now.hour = (env1.now.hour + 1) % 24)
    (hok : (Write w world env1 p1).ret = Ret.returned n none)
    (ht : env2.truncErr = none) (hb : env2.bucketErr = none) (hl : env2.liveErr = none) :
    (Write (Write w world env1 p1).state (Write w world env1 p1).world env2 p2).world.content
        (filepathJoin basePath "server.log") = p2
    ∧ currentFileOf basePath env1.now ≠ currentFileOf basePath env2.now
    ∧ (Write (Write w world env1 p1).state (Write w world env1 p1).world env2 p2).world.content
        (currentFileOf basePath env1.now) = world.content (currentFileOf basePath env1.now) ++ p1
    ∧ (Write (Write w world env1 p1).state (Write w world env1 p1).world env2 p2).world.content
        (currentFileOf basePath env2.now) = world.content (currentFileOf basePath env2.now) ++ p2
    ∧ Effect.truncate (filepathJoin basePath "server.log") none
        ∈ (Write (Write w world env1 p1).state (Write w world env1 p1).world env2 p2).trace := by
  obtain ⟨hb1, hl1⟩ := Write_success basePath w hr world env1 p1 n hok
  have hr1 : Reachable basePath (Write w world env1 p1).state := Reachable.write w world env1 p1 hr
  have hbase := hr.inv.1
  have hbase1 := hr1.inv.1
  have hlt := env1.now.hour_ok
  have hhour : (Write w world env1 p1).state.currentHour ≠ env2.now.Hour := by
    rw [Write_state, bucketChange_currentHour, hourChange_currentHour]
    unfold Time.Hour
    omega
  have hfiles : currentFileOf basePath env1.now ≠ currentFileOf basePath env2.now := by
    intro he
    have hs := (currentFileOf_eq_iff basePath env1.now env2.now).mp he
    have := hs.2.2.2
    omega
  have hlive1 := serverLogPath_ne_currentFile basePath env1.now
  have hlive2 := serverLogPath_ne_currentFile basePath env2.now
  refine ⟨?_, hfiles, ?_, ?_, ?_⟩
  rotate_left 3
  · apply Write_trace_prefix
    rw [hourChange_diff _ _ env2 hhour, hbase1, ht, osTruncate_result,
      Write_live_exists basePath w hr world env1 p1 hb1 hl1]
    simp
  · rw [Write_content basePath _ hr1 _ env2 p2 hb hl, if_pos (Or.inl rfl)]
    have := hourChange_content_truncated (Write w world env1 p1).state
      (Write w world env1 p1).world env2 hhour ht
    rw [hbase1] at this
    rw [this]
    rfl
  · rw [Write_content basePath _ hr1 _ env2 p2 hb hl,
      if_neg (by simp [hlive1.symm, hfiles]),
      hourChange_content_other _ _ _ _ (by rw [hbase1]; exact hlive1.symm),
      Write_content basePath _ hr _ env1 p1 hb1 hl1, if_pos (Or.inr rfl),
      hourChange_content_other _ _ _ _ (by rw [hbase]; exact hlive1.symm)]
  · rw [Write_content basePath _ hr1 _ env2 p2 hb hl, if_pos (Or.inr rfl),
      hourChange_content_other _ _ _ _ (by rw [hbase1]; exact hlive2.symm),
      Write_content basePath _ hr _ env1 p1 hb1 hl1,
      if_neg (by simp [hlive2.symm, hfiles.symm]),
      hourChange_content_other _ _ _ _ (by rw [hbase]; exact hlive2.symm)]

/-- The scenario of the specification: writes at 14:59:59 and at 15:00:01. -/
theorem live_truncated_on_boundary_witness :
    (Write (newTimeBasedWriteSyncer "./logs") emptyWorld (calmEnv t1459) [1]).ret
        = Ret.returned 1 none
    ∧ (Write (Write (newTimeBasedWriteSyncer "./logs") emptyWorld (calmEnv t1459) [1]).state
        (Write (newTimeBasedWriteSyncer "./logs") emptyWorld (calmEnv t1459) [1]).world
        (calmEnv t1500) [2]).world.content (filepathJoin "./logs" "server.log") = [2]
    ∧ currentFileOf "./logs" t1459 ≠ currentFileOf "./logs" t1500
    ∧ (Write (Write (newTimeBasedWriteSyncer "./logs") emptyWorld (calmEnv t1459) [1]).state
        (Write (newTimeBasedWriteSyncer "./logs") emptyWorld (calmEnv t1459) [1]).world
        (calmEnv t1500) [2]).world.content (currentFileOf "./logs" t1459)
          = emptyWorld.content (currentFileOf "./logs" t1459) ++ [1]
    ∧ (Write (Write (newTimeBasedWriteSyncer "./logs") emptyWorld (calmEnv t1459) [1]).state
        (Write (newTimeBasedWriteSyncer "./logs") emptyWorld (calmEnv t1459) [1]).world
        (calmEnv t1500) [2]).world.content (currentFileOf "./logs" t1500)
          = emptyWorld.content (currentFileOf "./logs" t1500) ++ [2] :=
  have hok : (Write (newTimeBasedWriteSyncer "./logs") emptyWorld (calmEnv t1459) [1]).ret
      = Ret.returned 1 none := by decide
  have h := live_truncated_on_boundary "./logs" (newTimeBasedWriteSyncer "./logs")
    Reachable.init emptyWorld (calmEnv t1459) (calmEnv t1500) [1] [2] 1 (by decide) hok rfl rfl rfl
  ⟨hok, h.1, h.2.1, h.2.2.1, h.2.2.2.1⟩

/-! ## A failed truncation -/

theorem osTruncate_failed_world (w : World) (path : String) (f : Option IOErr) (e : IOErr)
    (h : (osTruncate w path f).2 = some e) : (osTruncate w path f).1 = w := by
  unfold osTruncate at h ⊢
  cases f with
  | some e0 => rfl
  | none =>
    cases hf : w.files path with
    | none => rfl
    | some c => simp [hf] at h

theorem warnings_hourChange (w : timeBasedWriteSyncer) (world : World) (env : Env)
    (h : w.currentHour ≠ env.now.Hour) :
    warnings (hourChange w world env).trace
      = (warningOf (filepathJoin w.basePath "server.log")
          (osTruncate world (filepathJoin w.basePath "server.log") env.truncErr).2).toList := by
  rw [hourChange_diff w world env h]
  unfold closeLive
  cases w.serverLog <;>
    cases warningOf (filepathJoin w.basePath "server.log")
      (osTruncate world (filepathJoin w.basePath "server.log") env.truncErr).2 <;>
    simp [warnings]

theorem warnings_bucketChange (w : timeBasedWriteSyncer) (env : Env) :
    warnings (bucketChange w env).2 = [] := by
  cases h : staleBucket w (currentFileOf w.basePath env.now)
  · rw [bucketChange_fresh w env h]
    rfl
  · rw [bucketChange_stale w env h]
    rfl

theorem liveReplacements_hourChange (w : timeBasedWriteSyncer) (world : World) (env : Env)
    (h : w.currentHour ≠ env.now.Hour) :
    liveReplacements (hourChange w world env).trace
      = [liveLogger (filepathJoin w.basePath "server.log")] := by
  rw [hourChange_diff w world env h]
  unfold closeLive
  cases w.serverLog <;>
    cases warningOf (filepathJoin w.basePath "server.log")
      (osTruncate world (filepathJoin w.basePath "server.log") env.truncErr).2 <;>
    simp [liveReplacements]

theorem liveReplacements_bucketChange (w : timeBasedWriteSyncer) (env : Env) :
    liveReplacements (bucketChange w env).2 = [] := by
  cases h : staleBucket w (currentFileOf w.basePath env.now)
  · rw [bucketChange_fresh w env h]
    rfl
  · rw [bucketChange_stale w env h]
    rfl

theorem warnings_Write (w : timeBasedWriteSyncer) (world : World) (env : Env) (p : Bytes) :
    warnings (Write w world env p).trace = warnings (hourChange w world env).trace := by
  unfold Write
  obtain ⟨ws, hws, hall⟩ := writeBoth_trace (bucketChange (hourChange w world env).state env).1
    (hourChange w world env).world env p
    ((hourChange w world env).trace ++ (bucketChange (hourChange w world env).state env).2)
  rw [hws, warnings_append, warnings_append, warnings_bucketChange, warnings_writes ws hall]
  simp

theorem liveReplacements_Write (w : timeBasedWriteSyncer) (world : World) (env : Env)
    (p : Bytes) :
    liveReplacements (Write w world env p).trace
      = liveReplacements (hourChange w world env).trace := by
  unfold Write
  obtain ⟨ws, hws, hall⟩ := writeBoth_trace (bucketChange (hourChange w world env).state env).1
    (hourChange w world env).world env p
    ((hourChange w world env).trace ++ (bucketChange (hourChange w world env).state env).2)
  rw [hws, liveReplacements_append, liveReplacements_append, liveReplacements_bucketChange,
    liveReplacements_writes ws hall]
  simp

/-- The sink writes print nothing. -/
theorem writeBoth_streams (w : timeBasedWriteSyncer) (world : World) (env : Env) (p : Bytes)
    (trace : List Effect) :
    (writeBoth w world env p trace).world.stdout = world.stdout
      ∧ (writeBoth w world env p trace).world.stderr = world.stderr := by
  unfold writeBoth
  cases w.current with
  | none => exact ⟨rfl, rfl⟩
  | some cur =>
    simp only
    cases (cur.Write world p env.bucketErr).err with
    | some e => exact ⟨Logger_Write_stdout _ _ _ _, Logger_Write_stderr _ _ _ _⟩
    | none =>
      simp only
      cases w.serverLog with
      | none => exact ⟨Logger_Write_stdout _ _ _ _, Logger_Write_stderr _ _ _ _⟩
      | some live =>
        simp only [Logger_Write_stdout, Logger_Write_stderr]
        exact ⟨trivial, trivial⟩

theorem Write_streams (w : timeBasedWriteSyncer) (world : World) (env : Env) (p : Bytes) :
    (Write w world env p).world.stdout = (hourChange w world env).world.stdout
      ∧ (Write w world env p).world.stderr = (hourChange w world env).world.stderr := by
  unfold Write
  exact writeBoth_streams _ _ _ _ _

theorem hourChange_streams (w : timeBasedWriteSyncer) (world : World) (env : Env)
    (h : w.currentHour ≠ env.now.Hour) :
    (hourChange w world env).world.stdout
        = world.stdout ++ (warningOf (filepathJoin w.basePath "server.log")
            (osTruncate world (filepathJoin w.basePath "server.log") env.truncErr).2).toList
      ∧ (hourChange w world env).world.stderr = world.stderr := by
  rw [hourChange_diff w world env h]
  simp only [stdout_printWarning, stderr_printWarning, osTruncate_stdout, osTruncate_stderr]
  exact ⟨trivial, trivial⟩

/-- C5 as stated fails here: the live file exists and truncating it is
refused. The warning is on standard output; standard error stays empty. -/
theorem truncation_warning_on_stdout :
    (osTruncate staleWorld "logs/server.log" (some IOErr.permission)).2 = some IOErr.permission
    ∧ osIsNotExist IOErr.permission = false
    ∧ (Write (newTimeBasedWriteSyncer "./logs") staleWorld
        (truncFailEnv t1405 IOErr.permission) [1]).world.stderr = []
    ∧ (Write (newTimeBasedWriteSyncer "./logs") staleWorld
        (truncFailEnv t1405 IOErr.permission) [1]).world.stdout
        = ["Warning: failed to truncate server.log: truncate logs/server.log: permission denied\n"] := by
  decide

/-- C5, amended in the channel only. At an hour change whose truncation of
`basePath/server.log` fails with `e`: if `e` is "file does not exist" nothing
is printed on either stream; otherwise the warning of line 56 is printed on
standard output and nothing on standard error. In both cases the call goes on:
the live sink is replaced, the hour is recorded, the hour-bucket sink is written
to and, that write succeeding, the live sink after it; when both writes succeed
the live file holds its old content followed by the new bytes. -/
theorem truncation_failure_policy (w : timeBasedWriteSyncer) (world : World) (env : Env)
    (p : Bytes) (e : IOErr) (hchange : w.currentHour ≠ env.now.Hour)
    (hfail : (osTruncate world (filepathJoin w.basePath "server.log") env.truncErr).2 = some e) :
    (osIsNotExist e = true →
        warnings (Write w world env p).trace = []
          ∧ (Write w world env p).world.stdout = world.stdout
          ∧ (Write w world env p).world.stderr = world.stderr)
    ∧ (osIsNotExist e = false →
        warnings (Write w world env p).trace
            = [truncateWarning (filepathJoin w.basePath "server.log") e]
          ∧ (Write w world env p).world.stdout
              = world.stdout ++ [truncateWarning (filepathJoin w.basePath "server.log") e]
          ∧ (Write w world env p).world.stderr = world.stderr)
    ∧ (Write w world env p).state.serverLog
        = some (liveLogger (filepathJoin w.basePath "server.log"))
    ∧ liveReplacements (Write w world env p).trace
        = [liveLogger (filepathJoin w.basePath "server.log")]
    ∧ (Write w world env p).state.currentHour = env.now.Hour
    ∧ bucketTargets (Write w world env p).trace = [currentFileOf w.basePath env.now]
    ∧ (env.bucketErr = none →
        ∃ (pre : List Effect) (cur : lumberjack.Logger) (n : Nat) (err : Option IOErr),
          (Write w world env p).trace
            = pre ++ [Effect.write Sink.bucket cur p p.length none,
                Effect.write Sink.live (liveLogger (filepathJoin w.basePath "server.log")) p n err])
    ∧ (env.bucketErr = none → env.liveErr = none →
        (Write w world env p).ret = Ret.returned p.length none
          ∧ (Write w world env p).world.content (filepathJoin w.basePath "server.log")
              = world.content (filepathJoin w.basePath "server.log") ++ p) := by
  have hwarn : warningOf (filepathJoin w.basePath "server.log")
      (osTruncate world (filepathJoin w.basePath "server.log") env.truncErr).2
        = if osIsNotExist e then none
          else some (truncateWarning (filepathJoin w.basePath "server.log") e) := by
    rw [hfail]
    unfold warningOf
    cases hne : osIsNotExist e <;> simp [hne]
  have hstreams := hourChange_streams w world env hchange
  have hW := Write_streams w world env p
  have hlive : (bucketChange (hourChange w world env).state env).1.serverLog
      = some (liveLogger (filepathJoin w.basePath "server.log")) := by
    rw [bucketChange_serverLog, hourChange_serverLog, if_pos hchange]
  obtain ⟨cur, hcur, hfn⟩ := bucketChange_current (hourChange w world env).state env
  rw [hourChange_basePath] at hfn
  have hworld : ∀ q, (hourChange w world env).world.content q = world.content q := by
    intro q
    rw [hourChange_diff w world env hchange]
    simp only [content_printWarning, osTruncate_failed_world _ _ _ e hfail]
  refine ⟨?_, ?_, ?_, ?_, ?_, bucketTargets_Write w world env p, ?_, ?_⟩
  · intro hne
    rw [warnings_Write, warnings_hourChange w world env hchange, hW.1, hW.2, hstreams.1,
      hstreams.2, hwarn, hne]
    simp
  · intro hne
    rw [warnings_Write, warnings_hourChange w world env hchange, hW.1, hW.2, hstreams.1,
      hstreams.2, hwarn, hne]
    simp
  · rw [Write_state, hlive]
  · rw [liveReplacements_Write, liveReplacements_hourChange w world env hchange]
  · rw [Write_state, bucketChange_currentHour, hourChange_currentHour]
  · intro hb
    have hw : Write w world env p = _ :=
      writeBoth_bucket_ok _ (hourChange w world env).world env p _ cur _ hcur hlive hb
    rw [hw]
    exact ⟨_, _, _, _, rfl⟩
  · intro hb hl
    have hw : Write w world env p = _ :=
      writeBoth_bucket_ok _ (hourChange w world env).world env p _ cur _ hcur hlive hb
    rw [hw, hl]
    refine ⟨rfl, ?_⟩
    have hne := serverLogPath_ne_currentFile w.basePath env.now
    simp only [Logger_Write_content, hfn, liveLogger, if_true, hne, if_false, hworld]

/-- A fresh router over a directory whose `server.log` cannot be truncated:
the old byte stays, the new one follows. -/
theorem truncation_failure_policy_witness :
    (newTimeBasedWriteSyncer "./logs").currentHour ≠ (truncFailEnv t1405 IOErr.permission).now.Hour
    ∧ (Write (newTimeBasedWriteSyncer "./logs") staleWorld
        (truncFailEnv t1405 IOErr.permission) [1]).world.content
          (filepathJoin "./logs" "server.log")
        = staleWorld.content (filepathJoin "./logs" "server.log") ++ [1] :=
  have hchange : (newTimeBasedWriteSyncer "./logs").currentHour
      ≠ (truncFailEnv t1405 IOErr.permission).now.Hour := by decide
  ⟨hchange, ((truncation_failure_policy (newTimeBasedWriteSyncer "./logs") staleWorld
    (truncFailEnv t1405 IOErr.permission) [1] IOErr.permission hchange
    rfl).2.2.2.2.2.2.2 rfl rfl).2⟩

/-! ## `Sync` -/

/-- C6 as stated fails here: closing the live sink fails with
"permission denied", which is not an "already closed" condition, and `Sync`
returns nil all the same. -/
theorem sync_drops_close_error :
    Effect.close Sink.live (liveLogger "logs/server.log") (some IOErr.permission)
        ∈ (Sync busyRouter ⟨none, some IOErr.permission⟩).trace
    ∧ IOErr.permission ≠ IOErr.closed
    ∧ (Sync busyRouter ⟨none, some IOErr.permission⟩).ret = none := by
  decide

/-- C6, amended in the result. `Sync` closes the hour-bucket sink when there is
one, then the live sink when there is one, drops what closing returns, leaves
the router state as it was and always returns nil. -/
theorem sync_closes_and_returns_nil (w : timeBasedWriteSyncer) (env : SyncEnv) :
    (Sync w env).ret = none
    ∧ (Sync w env).state = w
    ∧ (Sync w env).trace
        = (match w.current with
            | some l => [Effect.close Sink.bucket l env.closeCurrent]
            | none => [])
          ++ (match w.serverLog with
            | some l => [Effect.close Sink.live l env.closeLive]
            | none => []) :=
  ⟨rfl, rfl, rfl⟩

/-! ## The registry -/

/-- C7. Once a call of `DefaultLog` has completed without panic, `default_` is
set, and any later call, whatever its arguments and whatever `os.MkdirAll`
would answer, takes no step (no level parsing, no directory, no logger), does
not panic and leaves both registry variables unchanged, so that `Logger()`
returns what it returned before; and when the first call started from the
empty registry, that is the logger the first call built. -/
theorem idempotent_initialization (r : Registry) (mkdir1 mkdir2 : Option IOErr)
    (path1 level1 path2 level2 : String)
    (hok : (DefaultLog r mkdir1 path1 level1).panicked = none) :
    (DefaultLog r mkdir1 path1 level1).registry.default_ ≠ none
    ∧ (DefaultLog (DefaultLog r mkdir1 path1 level1).registry mkdir2 path2 level2).trace = []
    ∧ (DefaultLog (DefaultLog r mkdir1 path1 level1).registry mkdir2 path2 level2).panicked = none
    ∧ (DefaultLog (DefaultLog r mkdir1 path1 level1).registry mkdir2 path2 level2).registry
        = (DefaultLog r mkdir1 path1 level1).registry
    ∧ Logger (DefaultLog (DefaultLog r mkdir1 path1 level1).registry mkdir2 path2 level2).registry
        = Logger (DefaultLog r mkdir1 path1 level1).registry
    ∧ (r = Registry.zero →
        ∃ l : SugaredLogger, (defaultLog mkdir1 path1 level1).result = Except.ok l
          ∧ Logger (DefaultLog (DefaultLog r mkdir1 path1 level1).registry
              mkdir2 path2 level2).registry = some l) := by
  have hset : ∃ l, (DefaultLog r mkdir1 path1 level1).registry.default_ = some l
      ∧ (r = Registry.zero → (defaultLog mkdir1 path1 level1).result = Except.ok l
          ∧ (DefaultLog r mkdir1 path1 level1).registry.logger = some l) := by
    unfold DefaultLog at hok ⊢
    cases hd : r.default_ with
    | some l0 =>
      refine ⟨l0, by simp [hd], ?_⟩
      intro hz
      rw [hz] at hd
      simp [Registry.zero] at hd
    | none =>
      rw [hd] at hok
      simp only at hok ⊢
      cases hb : (defaultLog mkdir1 path1 level1).result with
      | error e => simp [hb] at hok
      | ok l => exact ⟨l, rfl, fun _ => ⟨rfl, rfl⟩⟩
  obtain ⟨l, hl, hz⟩ := hset
  have hsecond : DefaultLog (DefaultLog r mkdir1 path1 level1).registry mkdir2 path2 level2
      = ⟨(DefaultLog r mkdir1 path1 level1).registry, [], none⟩ := by
    generalize (DefaultLog r mkdir1 path1 level1).registry = r1 at hl ⊢
    unfold DefaultLog
    rw [hl]
  refine ⟨by simp [hl], ?_, ?_, ?_, ?_, ?_⟩
  · rw [hsecond]
  · rw [hsecond]
  · rw [hsecond]
  · rw [hsecond]
  · intro h0
    exact ⟨l, (hz h0).1, by rw [hsecond]; exact (hz h0).2⟩

/-- A first call with `"./logs"` and `"debug"`, then a call with an unknown
level and a directory that cannot be created. -/
theorem idempotent_initialization_witness :
    (DefaultLog Registry.zero none "./logs" "debug").panicked = none
    ∧ UnmarshalText "bogus" = none
    ∧ (DefaultLog (DefaultLog Registry.zero none "./logs" "debug").registry
        (some IOErr.permission) "/proc/none" "bogus").trace = []
    ∧ (DefaultLog (DefaultLog Registry.zero none "./logs" "debug").registry
        (some IOErr.permission) "/proc/none" "bogus").panicked = none
    ∧ Logger (DefaultLog (DefaultLog Registry.zero none "./logs" "debug").registry
        (some IOErr.permission) "/proc/none" "bogus").registry
        = some ⟨Level.debug, newTimeBasedWriteSyncer "./logs"⟩ :=
  have hok : (DefaultLog Registry.zero none "./logs" "debug").panicked = none := by decide
  have h := idempotent_initialization Registry.zero none (some IOErr.permission)
    "./logs" "debug" "/proc/none" "bogus" hok
  ⟨hok, by decide, h.2.1, h.2.2.1, by rw [h.2.2.2.2.1]; decide⟩

/-- With a successful hour-bucket write the call returns what the live sink's
write returns. -/
theorem write_result_aux (basePath : String) (w : timeBasedWriteSyncer)
    (hr : Reachable basePath w) (world : World) (env : Env) (p : Bytes)
    (hb : env.bucketErr = none) :
    (∀ n e, env.liveErr = some (n, e) → (Write w world env p).ret = Ret.returned n (some e))
      ∧ (env.liveErr = none → (Write w world env p).ret = Ret.returned p.length none) := by
  obtain ⟨cur, hcur, _⟩ := bucket_before_writes basePath w hr world env
  obtain ⟨live, hlive, _⟩ := live_before_writes basePath w hr world env
  have hw : Write w world env p = _ :=
    writeBoth_bucket_ok _ (hourChange w world env).world env p _ cur live hcur hlive hb
  rw [hw]
  constructor
  · intro n e h0
    rw [h0]
    rfl
  · intro h0
    rw [h0]
    rfl

/-! ## The first write of a fresh router -/

theorem truncations_bucketChange (w : timeBasedWriteSyncer) (env : Env) :
    truncations (bucketChange w env).2 = [] := by
  cases h : staleBucket w (currentFileOf w.basePath env.now)
  · rw [bucketChange_fresh w env h]
    rfl
  · rw [bucketChange_stale w env h]
    rfl

theorem truncations_hourChange (w : timeBasedWriteSyncer) (world : World) (env : Env)
    (h : w.currentHour ≠ env.now.Hour) :
    truncations (hourChange w world env).trace = [filepathJoin w.basePath "server.log"] := by
  rw [hourChange_diff w world env h]
  unfold closeLive
  cases w.serverLog <;>
    cases warningOf (filepathJoin w.basePath "server.log")
      (osTruncate world (filepathJoin w.basePath "server.log") env.truncErr).2 <;>
    simp [truncations]

theorem truncations_Write (w : timeBasedWriteSyncer) (world : World) (env : Env) (p : Bytes) :
    truncations (Write w world env p).trace = truncations (hourChange w world env).trace := by
  unfold Write
  obtain ⟨ws, hws, hall⟩ := writeBoth_trace (bucketChange (hourChange w world env).state env).1
    (hourChange w world env).world env p
    ((hourChange w world env).trace ++ (bucketChange (hourChange w world env).state env).2)
  rw [hws, truncations_append, truncations_append, truncations_bucketChange,
    truncations_writes ws hall]
  simp

/-- A call in the recorded hour of day truncates nothing and keeps the live
sink and the recorded hour. -/
theorem Write_same_hour (w : timeBasedWriteSyncer) (world : World) (env : Env) (p : Bytes)
    (h : w.currentHour = env.now.Hour) :
    truncations (Write w world env p).trace = []
      ∧ liveReplacements (Write w world env p).trace = []
      ∧ (Write w world env p).state.serverLog = w.serverLog
      ∧ (Write w world env p).state.currentHour = w.currentHour := by
  refine ⟨?_, ?_, ?_, ?_⟩
  · rw [truncations_Write, hourChange_trace_same w world env h]
    rfl
  · rw [liveReplacements_Write, hourChange_trace_same w world env h]
    rfl
  · rw [Write_state, bucketChange_serverLog, hourChange_same w world env h]
  · rw [Write_state, bucketChange_currentHour, hourChange_same w world env h]

theorem runWrites_same_hour (hour : Int) (calls : List (Env × Bytes)) :
    ∀ (w : timeBasedWriteSyncer) (world : World), w.currentHour = hour →
      (∀ c ∈ calls, c.1.now.Hour = hour) →
      ∀ o ∈ runWrites w world calls,
        truncations o.trace = [] ∧ liveReplacements o.trace = []
          ∧ o.state.serverLog = w.serverLog := by
  induction calls with
  | nil =>
    intro w world _ _ o ho
    simp [runWrites] at ho
  | cons c rest ih =>
    intro w world hw hall o ho
    obtain ⟨env, p⟩ := c
    have henv : env.now.Hour = hour := hall (env, p) (by simp)
    have hsame := Write_same_hour w world env p (hw.trans henv.symm)
    simp only [runWrites, List.mem_cons] at ho
    rcases ho with ho | ho
    · rw [ho]
      exact ⟨hsame.1, hsame.2.1, hsame.2.2.1⟩
    · have hrest := ih (Write w world env p).state (Write w world env p).world
        (hsame.2.2.2.trans hw) (fun c hc => hall c (by simp [hc])) o ho
      exact ⟨hrest.1, hrest.2.1, hrest.2.2.trans hsame.2.2.1⟩

theorem hourChange_content_failed (w : timeBasedWriteSyncer) (world : World) (env : Env)
    (e : IOErr) (h : w.currentHour ≠ env.now.Hour)
    (hfail : (osTruncate world (filepathJoin w.basePath "server.log") env.truncErr).2 = some e)
    (q : String) : (hourChange w world env).world.content q = world.content q := by
  rw [hourChange_diff w world env h]
  simp only [content_printWarning, osTruncate_failed_world _ _ _ e hfail]

/-- After an hour change whose truncation succeeded, or before which the live
file did not exist, the live file is empty. -/
theorem hourChange_content_cleared (w : timeBasedWriteSyncer) (world : World) (env : Env)
    (h : w.currentHour ≠ env.now.Hour)
    (hclear : (osTruncate world (filepathJoin w.basePath "server.log") env.truncErr).2 = none
      ∨ world.files (filepathJoin w.basePath "server.log") = none) :
    (hourChange w world env).world.content (filepathJoin w.basePath "server.log") = [] := by
  cases ht : env.truncErr with
  | none => exact hourChange_content_truncated w world env h ht
  | some e =>
    rw [ht, osTruncate_fault] at hclear
    rcases hclear with hc | hc
    · simp at hc
    · rw [hourChange_content_kept w world env e ht]
      simp [World.content, hc]

/-- C10 as stated fails here: a fresh router over a directory whose
`server.log` holds `[9]` and cannot be truncated. The first `Write` of `[1]`
returns `(1, nil)`, a success, and the live file holds `[9, 1]`, not `[1]`. -/
theorem first_write_keeps_refused_content :
    (Write (newTimeBasedWriteSyncer "./logs") staleWorld
        (truncFailEnv t1405 IOErr.permission) [1]).ret = Ret.returned 1 none
    ∧ staleWorld.content (filepathJoin "./logs" "server.log") = [9]
    ∧ truncations (Write (newTimeBasedWriteSyncer "./logs") staleWorld
        (truncFailEnv t1405 IOErr.permission) [1]).trace = [filepathJoin "./logs" "server.log"]
    ∧ (Write (newTimeBasedWriteSyncer "./logs") staleWorld
        (truncFailEnv t1405 IOErr.permission) [1]).world.content
          (filepathJoin "./logs" "server.log") = [9, 1]
    ∧ ([9, 1] : Bytes) ≠ [1] := by
  decide

/-- C10, amended in the content of the live file only. The first `Write` on a
router fresh from `newTimeBasedWriteSyncer` takes the hour-change branch at
every instant, the recorded hour -1 being no hour of day: it first closes the
constructor's live sink and calls the truncation of `basePath/server.log`.
After that first `Write`, when it returned without error, the bucket file holds
what it held before followed by `p`; the live file holds exactly `p` when the
truncation succeeded or the live file did not exist, and what it held before
followed by `p` when the truncation failed. The later calls in the same hour of
day truncate nothing and install no live sink. -/
theorem first_write_truncates (basePath : String) (world : World) (env : Env) (p : Bytes) :
    (newTimeBasedWriteSyncer basePath).currentHour ≠ env.now.Hour
    ∧ (∃ rest : List Effect,
        (Write (newTimeBasedWriteSyncer basePath) world env p).trace
          = Effect.close Sink.live (liveLogger (filepathJoin basePath "server.log")) env.closeErr
            :: Effect.truncate (filepathJoin basePath "server.log")
                (osTruncate world (filepathJoin basePath "server.log") env.truncErr).2
            :: rest)
    ∧ truncations (Write (newTimeBasedWriteSyncer basePath) world env p).trace
        = [filepathJoin basePath "server.log"]
    ∧ (∀ n : Nat, (Write (newTimeBasedWriteSyncer basePath) world env p).ret
          = Ret.returned n none →
        n = p.length
          ∧ (Write (newTimeBasedWriteSyncer basePath) world env p).world.content
              (currentFileOf basePath env.now)
              = world.content (currentFileOf basePath env.now) ++ p
          ∧ ((osTruncate world (filepathJoin basePath "server.log") env.truncErr).2 = none
              ∨ world.files (filepathJoin basePath "server.log") = none →
            (Write (newTimeBasedWriteSyncer basePath) world env p).world.content
              (filepathJoin basePath "server.log") = p)
          ∧ (∀ e : IOErr,
              (osTruncate world (filepathJoin basePath "server.log") env.truncErr).2 = some e →
            (Write (newTimeBasedWriteSyncer basePath) world env p).world.content
              (filepathJoin basePath "server.log")
              = world.content (filepathJoin basePath "server.log") ++ p))
    ∧ (∀ calls : List (Env × Bytes), (∀ c ∈ calls, c.1.now.hour = env.now.hour) →
        ∀ o ∈ runWrites (Write (newTimeBasedWriteSyncer basePath) world env p).state
            (Write (newTimeBasedWriteSyncer basePath) world env p).world calls,
          truncations o.trace = [] ∧ liveReplacements o.trace = []
            ∧ o.state.serverLog
                = (Write (newTimeBasedWriteSyncer basePath) world env p).state.serverLog) := by
  have hsent : (newTimeBasedWriteSyncer basePath).currentHour ≠ env.now.Hour := by
    unfold newTimeBasedWriteSyncer Time.Hour
    simp only
    omega
  have hinit : Reachable basePath (newTimeBasedWriteSyncer basePath) := Reachable.init
  have hbase : (newTimeBasedWriteSyncer basePath).basePath = basePath := rfl
  refine ⟨hsent, ?_, ?_, ?_, ?_⟩
  · unfold Write
    obtain ⟨ws, hws, _⟩ := writeBoth_trace
      (bucketChange (hourChange (newTimeBasedWriteSyncer basePath) world env).state env).1
      (hourChange (newTimeBasedWriteSyncer basePath) world env).world env p
      ((hourChange (newTimeBasedWriteSyncer basePath) world env).trace
        ++ (bucketChange (hourChange (newTimeBasedWriteSyncer basePath) world env).state env).2)
    rw [hws, hourChange_diff _ world env hsent]
    exact ⟨_, rfl⟩
  · rw [truncations_Write, truncations_hourChange _ world env hsent]
    rfl
  · intro n hret
    obtain ⟨hb, hl⟩ := Write_success basePath _ hinit world env p n hret
    have hne := serverLogPath_ne_currentFile basePath env.now
    refine ⟨?_, ?_, ?_, ?_⟩
    · have hlen := (write_result_aux basePath _ hinit world env p hb).2 hl
      rw [hlen] at hret
      simp only [Ret.returned.injEq, and_true] at hret
      exact hret.symm
    · rw [Write_content basePath _ hinit world env p hb hl, if_pos (Or.inr rfl),
        hourChange_content_other _ _ _ _ hne.symm]
    · intro hclear
      rw [Write_content basePath _ hinit world env p hb hl, if_pos (Or.inl rfl)]
      have := hourChange_content_cleared (newTimeBasedWriteSyncer basePath) world env hsent
        (by rw [hbase]; exact hclear)
      rw [hbase] at this
      rw [this]
      rfl
    · intro e hfail
      rw [Write_content basePath _ hinit world env p hb hl, if_pos (Or.inl rfl),
        hourChange_content_failed (newTimeBasedWriteSyncer basePath) world env e hsent
          (by rw [hbase]; exact hfail)]
  · intro calls hcalls
    apply runWrites_same_hour env.now.Hour calls
    · rw [Write_state, bucketChange_currentHour, hourChange_currentHour]
    · intro c hc
      unfold Time.Hour
      rw [hcalls c hc]

/-- A fresh router over a directory whose `server.log` holds a byte of an
earlier run, the truncation succeeding: the live file holds the new byte
alone. -/
theorem first_write_truncates_witness :
    (Write (newTimeBasedWriteSyncer "./logs") staleWorld (calmEnv t1405) [1]).ret
        = Ret.returned 1 none
    ∧ staleWorld.content (filepathJoin "./logs" "server.log") = [9]
    ∧ (osTruncate staleWorld (filepathJoin "./logs" "server.log") (calmEnv t1405).truncErr).2
        = none
    ∧ (Write (newTimeBasedWriteSyncer "./logs") staleWorld (calmEnv t1405) [1]).world.content
        (filepathJoin "./logs" "server.log") = [1] :=
  have hret : (Write (newTimeBasedWriteSyncer "./logs") staleWorld (calmEnv t1405) [1]).ret
      = Ret.returned 1 none := by decide
  have htr : (osTruncate staleWorld (filepathJoin "./logs" "server.log")
      (calmEnv t1405).truncErr).2 = none := by decide
  ⟨hret, by decide, htr,
    ((first_write_truncates "./logs" staleWorld (calmEnv t1405) [1]).2.2.2.1 1 hret).2.2.1
      (Or.inl htr)⟩

/-! ## The live file across a gap of whole days -/

/-- C3, what the code does where the claim fails. On a fresh router over an
empty directory, with every operation succeeding, a write of `p1` followed by a
write of `p2` at an instant of another calendar hour with the same hour of day
(a gap of whole days) truncates nothing at the second call: the live file holds
`p1` followed by `p2`, while the bucket file of the current hour holds `p2`
alone. -/
theorem live_file_keeps_previous_day (basePath : String) (t1 t2 : Time) (p1 p2 : Bytes)
    (hhour : t1.hour = t2.hour) (hdiff : ¬ sameCalendarHour t1 t2) :
    (Write (newTimeBasedWriteSyncer basePath) emptyWorld (calmEnv t1) p1).ret
        = Ret.returned p1.length none
    ∧ (Write (Write (newTimeBasedWriteSyncer basePath) emptyWorld (calmEnv t1) p1).state
        (Write (newTimeBasedWriteSyncer basePath) emptyWorld (calmEnv t1) p1).world
        (calmEnv t2) p2).ret = Ret.returned p2.length none
    ∧ truncations
        (Write (Write (newTimeBasedWriteSyncer basePath) emptyWorld (calmEnv t1) p1).state
          (Write (newTimeBasedWriteSyncer basePath) emptyWorld (calmEnv t1) p1).world
          (calmEnv t2) p2).trace = []
    ∧ (Write (Write (newTimeBasedWriteSyncer basePath) emptyWorld (calmEnv t1) p1).state
        (Write (newTimeBasedWriteSyncer basePath) emptyWorld (calmEnv t1) p1).world
        (calmEnv t2) p2).world.content (filepathJoin basePath "server.log") = p1 ++ p2
    ∧ (Write (Write (newTimeBasedWriteSyncer basePath) emptyWorld (calmEnv t1) p1).state
        (Write (newTimeBasedWriteSyncer basePath) emptyWorld (calmEnv t1) p1).world
        (calmEnv t2) p2).world.content (currentFileOf basePath t2) = p2 := by
  have h0 : Reachable basePath (newTimeBasedWriteSyncer basePath) := Reachable.init
  have h1 : Reachable basePath
      (Write (newTimeBasedWriteSyncer basePath) emptyWorld (calmEnv t1) p1).state :=
    Reachable.write _ _ _ _ h0
  have hsent : (newTimeBasedWriteSyncer basePath).currentHour ≠ (calmEnv t1).now.Hour := by
    unfold newTimeBasedWriteSyncer Time.Hour
    simp only
    omega
  have hsame : (Write (newTimeBasedWriteSyncer basePath) emptyWorld (calmEnv t1) p1).state.currentHour
      = (calmEnv t2).now.Hour := by
    rw [Write_state, bucketChange_currentHour, hourChange_currentHour]
    unfold Time.Hour calmEnv
    simp only [hhour]
  have hfiles : currentFileOf basePath t2 ≠ currentFileOf basePath t1 := by
    intro he
    exact hdiff ((currentFileOf_eq_iff basePath t1 t2).mp he.symm)
  have hlive2 := serverLogPath_ne_currentFile basePath t2
  have htrunc := hourChange_content_truncated (newTimeBasedWriteSyncer basePath) emptyWorld
    (calmEnv t1) hsent rfl
  rw [show (newTimeBasedWriteSyncer basePath).basePath = basePath from rfl] at htrunc
  refine ⟨(write_result_aux basePath _ h0 emptyWorld (calmEnv t1) p1 rfl).2 rfl,
    (write_result_aux basePath _ h1 _ (calmEnv t2) p2 rfl).2 rfl,
    (Write_same_hour _ _ (calmEnv t2) p2 hsame).1, ?_, ?_⟩
  · rw [Write_content basePath _ h1 _ (calmEnv t2) p2 rfl rfl, if_pos (Or.inl rfl),
      hourChange_same _ _ (calmEnv t2) hsame,
      Write_content basePath _ h0 _ (calmEnv t1) p1 rfl rfl, if_pos (Or.inl rfl), htrunc]
    rfl
  · rw [Write_content basePath _ h1 _ (calmEnv t2) p2 rfl rfl]
    have hb : (calmEnv t2).now = t2 := rfl
    rw [hb, if_pos (Or.inr rfl), hourChange_same _ _ (calmEnv t2) hsame,
      Write_content basePath _ h0 _ (calmEnv t1) p1 rfl rfl]
    have ha : (calmEnv t1).now = t1 := rfl
    rw [ha, if_neg (by simp [hlive2.symm, hfiles]),
      hourChange_content_other _ _ _ _ hlive2.symm]
    rfl

/-- C3 at the failing input: `[1]` written at 14:05 on 9 March 2024, `[2]` at
14:05 on 10 March 2024. The live file holds `[1, 2]`, which is neither `[2]`
nor the content of the current hour's bucket file. -/
theorem live_file_keeps_previous_day_witness :
    t1405.notAfter t1405next
    ∧ (Write (Write (newTimeBasedWriteSyncer "./logs") emptyWorld (calmEnv t1405) [1]).state
        (Write (newTimeBasedWriteSyncer "./logs") emptyWorld (calmEnv t1405) [1]).world
        (calmEnv t1405next) [2]).world.content (filepathJoin "./logs" "server.log") = [1, 2]
    ∧ (Write (Write (newTimeBasedWriteSyncer "./logs") emptyWorld (calmEnv t1405) [1]).state
        (Write (newTimeBasedWriteSyncer "./logs") emptyWorld (calmEnv t1405) [1]).world
        (calmEnv t1405next) [2]).world.content (currentFileOf "./logs" t1405next) = [2]
    ∧ currentFileOf "./logs" t1405next = "logs/server-2024-03-10-14.log"
    ∧ ([1, 2] : Bytes) ≠ [2] :=
  have h := live_file_keeps_previous_day "./logs" t1405 t1405next [1] [2]
    (by decide) (by decide)
  ⟨by decide, h.2.2.2.1, h.2.2.2.2, by decide, by decide⟩

/-! ## Hour-bucket determinism -/

/-- C1. For a fixed base path, the file the hour-bucket sink is written to by
`Write` is `basePath/server-<YYYY-MM-DD-HH of now>.log`, and two calls target
the same file if and only if their instants lie in the same calendar hour;
minutes, seconds, the bytes, the world and the rest of the router state play
no part. -/
theorem hour_bucket_determinism (w1 w2 : timeBasedWriteSyncer) (world1 world2 : World)
    (env1 env2 : Env) (p1 p2 : Bytes) (hbase : w1.basePath = w2.basePath) :
    bucketTargets (Write w1 world1 env1 p1).trace
        = [filepathJoin w1.basePath ("server-" ++ env1.now.Format ++ ".log")]
    ∧ (bucketTargets (Write w1 world1 env1 p1).trace
          = bucketTargets (Write w2 world2 env2 p2).trace
        ↔ sameCalendarHour env1.now env2.now) := by
  refine ⟨bucketTargets_Write w1 world1 env1 p1, ?_⟩
  rw [bucketTargets_Write, bucketTargets_Write, ← hbase]
  simp only [List.cons.injEq, and_true]
  exact currentFileOf_eq_iff w1.basePath env1.now env2.now

/-- Two routers over `./logs`, written to at 14:05:00 and at 14:59:59. -/
theorem hour_bucket_determinism_witness :
    bucketTargets (Write (newTimeBasedWriteSyncer "./logs") emptyWorld (calmEnv t1405) [1]).trace
        = [filepathJoin "./logs" ("server-" ++ t1405.Format ++ ".log")]
    ∧ (bucketTargets (Write (newTimeBasedWriteSyncer "./logs") emptyWorld (calmEnv t1405) [1]).trace
          = bucketTargets
              (Write (newTimeBasedWriteSyncer "./logs") emptyWorld (calmEnv t1459) [2, 3]).trace
        ↔ sameCalendarHour t1405 t1459) :=
  hour_bucket_determinism (newTimeBasedWriteSyncer "./logs") (newTimeBasedWriteSyncer "./logs")
    emptyWorld emptyWorld (calmEnv t1405) (calmEnv t1459) [1] [2, 3] rfl

end GoLog
